import Mathlib

/-!
Verification of the Thermal-Dashboard core: ideal-gas process-law library,
path sampler (src/core/process_paths.py), air-standard cycle solvers
(src/cycles/carnot.py, brayton.py, otto.py, diesel.py, dual.py), real-fluid
solvers (src/cycles/rankine_basic.py, rankine_reheat.py) and the saturation
table of src/cycles/refrigeration_vcr.py.

Modelling conventions:
* Python floats are modelled by real numbers; `a ** b` on floats is `Real.rpow`.
* `ValueError` raises are modelled with `Except.error` carrying the source's
  message string.  A float division whose denominator can be zero after the
  explicit guards (the `eta`/`COP` divisions in the metrics computations)
  would raise `ZeroDivisionError` in Python; this is modelled by an explicit
  error branch testing the denominator, placed where the division occurs.
  Divisions occurring before the guards with denominators that are fixed by
  physically meaningless parameter choices only (for instance `gamma = 1` in
  `cv = R / (gamma - 1)`) are left as total real division.
* pandas DataFrames are fixed-field record lists; column values keep the
  source order and names where Lean allows.
* The external property providers (iapws' IAPWS97, CoolProp's PropsSI) are
  out of scope per the spec and are abstracted as function-record parameters.
-/

noncomputable section

/-- One sample of a reconstructed process path: the columns
`P_kPa`, `v_m3_per_kg`, `T_K`, `s_kJ_per_kgK` of the DataFrames built by the
path functions in src/core/process_paths.py. -/
structure Sample where
  P : ℝ
  v : ℝ
  T : ℝ
  s : ℝ

/-- `np.linspace a b n`: `n` evenly spaced samples from `a` to `b`,
endpoints included (element `i` is `a + (b - a) * i / (n - 1)`). -/
def linspace (a b : ℝ) (n : ℕ) : List ℝ :=
  (List.range n).map fun i : ℕ => a + (b - a) * (i : ℝ) / ((n : ℝ) - 1)

/-- `_cv_from_gamma_R` (process_paths.py lines 8-11): returns `(cp, cv)` with
`cv = R / (gamma - 1)` and `cp = gamma * cv`. -/
def cv_from_gamma_R (gamma R : ℝ) : ℝ × ℝ :=
  (gamma * (R / (gamma - 1)), R / (gamma - 1))

/-- `path_isentropic_ideal` (process_paths.py lines 13-20): volume sampled
linearly, `P = Pa * Va ^ gamma / V ^ gamma`, `T = Ta * (Va / V) ^ (gamma - 1)`,
entropy held at `s_a`.  `Pb` and `R` are accepted and unused, as in the source.
The source defaults are `n = 80`, `s_a = 0`. -/
def path_isentropic_ideal (Pa Va Ta Pb Vb gamma R : ℝ) (n : ℕ) (s_a : ℝ) :
    List Sample :=
  (linspace Va Vb n).map fun V =>
    ⟨Pa * Va ^ gamma / V ^ gamma, V, Ta * (Va / V) ^ (gamma - 1), s_a⟩

/-- `path_const_v_ideal` (process_paths.py lines 22-28): temperature sampled
linearly, `P = R * T / Vconst`, volume fixed, `s = s_a + cv * log (T / Ta)`.
The source defaults are `n = 60`, `s_a = 0`, `gamma = 1.4`. -/
def path_const_v_ideal (Vconst Ta Tb R : ℝ) (n : ℕ) (s_a gamma : ℝ) :
    List Sample :=
  (linspace Ta Tb n).map fun T =>
    ⟨R * T / Vconst, Vconst, T, s_a + (cv_from_gamma_R gamma R).2 * Real.log (T / Ta)⟩

/-- `path_const_p_ideal` (process_paths.py lines 30-36): temperature sampled
linearly, `V = R * T / Pconst`, pressure fixed, `s = s_a + cp * log (T / Ta)`.
The source defaults are `n = 60`, `s_a = 0`, `gamma = 1.4`. -/
def path_const_p_ideal (Pconst Ta Tb R : ℝ) (n : ℕ) (s_a gamma : ℝ) :
    List Sample :=
  (linspace Ta Tb n).map fun T =>
    ⟨Pconst, R * T / Pconst, T, s_a + (cv_from_gamma_R gamma R).1 * Real.log (T / Ta)⟩

/-- `path_isothermal_ideal` (process_paths.py lines 38-43): volume sampled
linearly, `P = R * Tconst / V`, temperature fixed, `s = s_a + R * log (V / Va)`.
The source defaults are `n = 80`, `s_a = 0`. -/
def path_isothermal_ideal (Tconst Va Vb R : ℝ) (n : ℕ) (s_a : ℝ) :
    List Sample :=
  (linspace Va Vb n).map fun V =>
    ⟨R * Tconst / V, V, Tconst, s_a + R * Real.log (V / Va)⟩

theorem linspace_length (a b : ℝ) (n : ℕ) : (linspace a b n).length = n := by
  rw [linspace, List.length_map, List.length_range]

theorem linspace_getElem (a b : ℝ) (n i : ℕ) (h : i < (linspace a b n).length) :
    (linspace a b n)[i] = a + (b - a) * (i : ℝ) / ((n : ℝ) - 1) := by
  simp only [linspace, List.getElem_map, List.getElem_range]

theorem linspace_head (a b : ℝ) (n : ℕ) (h : 0 < n) :
    (linspace a b n).head? = some a := by
  cases n with
  | zero => omega
  | succ m =>
    simp [linspace, List.range_succ_eq_map]

/-- One row of a cycle's states DataFrame as consumed by the path sampler:
the `State` label and the `P_kPa`, `v_m3_per_kg`, `T_K` columns plus the
table's entropy column value. -/
structure StateRow where
  idx : ℕ
  P : ℝ
  v : ℝ
  T : ℝ
  s : ℝ

/-- A states DataFrame for the path sampler.  `hasScol` records whether the
frame exposes an entropy column (`smooth_path_ideal` recognises both the
`s_kJ_per_kgK` and the `s_rel_kJ_per_kgK` spelling; which of the two names is
present only affects the rename performed on output at process_paths.py lines
110-111, which is invisible in this fixed-field representation, so a single
flag suffices).  When `hasScol` is false the `s` fields of the rows are
not meaningful and are never read. -/
structure StatesTable where
  rows : List StateRow
  hasScol : Bool

/-- The failures `smooth_path_ideal` can raise: `stateNotFound k` models the
pandas IndexError from `.iloc[0]` on an empty label selection (line 65),
`unknownKind` the `ValueError("Unknown leg kind: ...")` (line 99), and
`emptyConcat` the `ValueError` that `pd.concat` raises on an empty list of
frames (line 106, reached only for an empty leg list). -/
inductive PathError where
  | stateNotFound (k : ℕ)
  | unknownKind (kind : String)
  | emptyConcat
deriving DecidableEq

/-- The entropy anchor the sampler computes at the start of each leg
(process_paths.py line 72): the leg's start state's entropy column value if
the table has an entropy column, else 0. -/
def legAnchor (tbl : StatesTable) (i : ℕ) : ℝ :=
  match tbl.rows.find? fun r => r.idx == i with
  | some a => if tbl.hasScol then a.s else 0
  | none => 0

/-- One iteration of the loop in `smooth_path_ideal` (process_paths.py lines
67-99): resolve the leg's start and end rows by `State` label (in that order,
as the source evaluates `a = row(i)` then `b = row(j)`), compute the entropy
anchor from the start row, and dispatch on the leg kind with the sample
counts used at the call sites (`n = 90` for isentropic and isothermal legs,
`n = 70` for constant-volume and constant-pressure legs). -/
def runLeg (tbl : StatesTable) (gamma R : ℝ) (leg : String × ℕ × ℕ) :
    Except PathError (List Sample) :=
  match tbl.rows.find? fun r => r.idx == leg.2.1 with
  | none => .error (.stateNotFound leg.2.1)
  | some a =>
    match tbl.rows.find? fun r => r.idx == leg.2.2 with
    | none => .error (.stateNotFound leg.2.2)
    | some b =>
      let s_a := if tbl.hasScol then a.s else 0
      if leg.1 = "isen" then
        .ok (path_isentropic_ideal a.P a.v a.T b.P b.v gamma R 90 s_a)
      else if leg.1 = "cv" then
        .ok (path_const_v_ideal a.v a.T b.T R 70 s_a gamma)
      else if leg.1 = "cp" then
        .ok (path_const_p_ideal a.P a.T b.T R 70 s_a gamma)
      else if leg.1 = "isoth" then
        .ok (path_isothermal_ideal a.T a.v b.v R 90 s_a)
      else
        .error (.unknownKind leg.1)

/-- The legs after the first, in source order: each computed segment has its
first sample dropped (`seg.iloc[1:]`, process_paths.py lines 102-103) before
concatenation, and the first failing leg aborts the whole call. -/
def runLegsTail (tbl : StatesTable) (gamma R : ℝ) :
    List (String × ℕ × ℕ) → Except PathError (List Sample)
  | [] => .ok []
  | l :: ls => do
    let seg ← runLeg tbl gamma R l
    let rest ← runLegsTail tbl gamma R ls
    .ok (seg.tail ++ rest)

/-- `smooth_path_ideal` (process_paths.py lines 46-113).  The source defaults
are `gamma = 1.4`, `R = 0.287`.  The first leg's segment is kept whole; every
later leg loses its first sample; `pd.concat` on zero frames (empty `legs`)
raises. -/
def smooth_path_ideal (tbl : StatesTable) (legs : List (String × ℕ × ℕ))
    (gamma R : ℝ) : Except PathError (List Sample) :=
  match legs with
  | [] => .error .emptyConcat
  | l0 :: rest => do
    let seg0 ← runLeg tbl gamma R l0
    let tailSegs ← runLegsTail tbl gamma R rest
    .ok (seg0 ++ tailSegs)

/-- The per-leg sample count `smooth_path_ideal` passes to the process-law
functions for each recognised kind. -/
def legSampleCount (kind : String) : ℕ :=
  if kind = "isen" then 90
  else if kind = "cv" then 70
  else if kind = "cp" then 70
  else if kind = "isoth" then 90
  else 0

/-- The four leg kinds `smooth_path_ideal` dispatches on. -/
def recognisedKind (kind : String) : Prop :=
  kind = "isen" ∨ kind = "cv" ∨ kind = "cp" ∨ kind = "isoth"

instance (kind : String) : Decidable (recognisedKind kind) := by
  unfold recognisedKind
  infer_instance

/-- Both state labels of a leg resolve in the table. -/
def legResolves (tbl : StatesTable) (leg : String × ℕ × ℕ) : Prop :=
  (tbl.rows.find? fun r => r.idx == leg.2.1).isSome ∧
    (tbl.rows.find? fun r => r.idx == leg.2.2).isSome

/-- C5: on every Process Law leg the quantity the process holds fixed is the
same at every sample: entropy `s_a` on an isentropic leg, the volume `Vconst`
on a constant-volume leg, the pressure `Pconst` on a constant-pressure leg and
the temperature `Tconst` on an isothermal leg. -/
theorem C5_leg_invariants :
    (∀ Pa Va Ta Pb Vb gamma R n s_a x,
        x ∈ path_isentropic_ideal Pa Va Ta Pb Vb gamma R n s_a → x.s = s_a) ∧
    (∀ Vconst Ta Tb R n s_a gamma x,
        x ∈ path_const_v_ideal Vconst Ta Tb R n s_a gamma → x.v = Vconst) ∧
    (∀ Pconst Ta Tb R n s_a gamma x,
        x ∈ path_const_p_ideal Pconst Ta Tb R n s_a gamma → x.P = Pconst) ∧
    (∀ Tconst Va Vb R n s_a x,
        x ∈ path_isothermal_ideal Tconst Va Vb R n s_a → x.T = Tconst) := by
  refine ⟨?_, ?_, ?_, ?_⟩ <;>
    · intros
      rename_i hx
      simp [path_isentropic_ideal, path_const_v_ideal, path_const_p_ideal,
        path_isothermal_ideal, List.mem_map] at hx
      obtain ⟨t, -, rfl⟩ := hx
      rfl

/-- Concrete instantiation of C5: on one-sample legs with explicit numeric
inputs, each conserved column indeed carries the defining constant. -/
theorem C5_leg_invariants_witness :
    (∃ x, x ∈ path_isentropic_ideal 1 1 1 1 1 2 1 1 5 ∧ x.s = 5) ∧
    (∃ x, x ∈ path_const_v_ideal 3 1 1 1 1 0 2 ∧ x.v = 3) ∧
    (∃ x, x ∈ path_const_p_ideal 4 1 1 1 1 0 2 ∧ x.P = 4) ∧
    (∃ x, x ∈ path_isothermal_ideal 7 1 1 1 1 0 ∧ x.T = 7) := by
  have hmem1 : (⟨1 * 1 ^ (2:ℝ) / 1 ^ (2:ℝ), 1, 1 * ((1:ℝ) / 1) ^ ((2:ℝ) - 1), 5⟩ : Sample)
      ∈ path_isentropic_ideal 1 1 1 1 1 2 1 1 5 := by
    simp [path_isentropic_ideal, linspace, List.range_succ]
  have hmem2 : (⟨1 * 1 / 3, 3, 1, 0 + (cv_from_gamma_R 2 1).2 * Real.log (1 / 1)⟩ : Sample)
      ∈ path_const_v_ideal 3 1 1 1 1 0 2 := by
    simp [path_const_v_ideal, linspace, List.range_succ]
  have hmem3 : (⟨4, 1 * 1 / 4, 1, 0 + (cv_from_gamma_R 2 1).1 * Real.log (1 / 1)⟩ : Sample)
      ∈ path_const_p_ideal 4 1 1 1 1 0 2 := by
    simp [path_const_p_ideal, linspace, List.range_succ]
  have hmem4 : (⟨1 * 7 / 1, 1, 7, 0 + 1 * Real.log ((1:ℝ) / 1)⟩ : Sample)
      ∈ path_isothermal_ideal 7 1 1 1 1 0 := by
    simp [path_isothermal_ideal, linspace, List.range_succ]
  exact ⟨⟨_, hmem1, C5_leg_invariants.1 _ _ _ _ _ _ _ _ _ _ hmem1⟩,
    ⟨_, hmem2, C5_leg_invariants.2.1 _ _ _ _ _ _ _ _ hmem2⟩,
    ⟨_, hmem3, C5_leg_invariants.2.2.1 _ _ _ _ _ _ _ _ hmem3⟩,
    ⟨_, hmem4, C5_leg_invariants.2.2.2 _ _ _ _ _ _ _ hmem4⟩⟩

theorem path_isentropic_length (Pa Va Ta Pb Vb gamma R : ℝ) (n : ℕ) (s_a : ℝ) :
    (path_isentropic_ideal Pa Va Ta Pb Vb gamma R n s_a).length = n := by
  rw [path_isentropic_ideal, List.length_map, linspace_length]

theorem path_const_v_length (Vconst Ta Tb R : ℝ) (n : ℕ) (s_a gamma : ℝ) :
    (path_const_v_ideal Vconst Ta Tb R n s_a gamma).length = n := by
  rw [path_const_v_ideal, List.length_map, linspace_length]

theorem path_const_p_length (Pconst Ta Tb R : ℝ) (n : ℕ) (s_a gamma : ℝ) :
    (path_const_p_ideal Pconst Ta Tb R n s_a gamma).length = n := by
  rw [path_const_p_ideal, List.length_map, linspace_length]

theorem path_isothermal_length (Tconst Va Vb R : ℝ) (n : ℕ) (s_a : ℝ) :
    (path_isothermal_ideal Tconst Va Vb R n s_a).length = n := by
  rw [path_isothermal_ideal, List.length_map, linspace_length]

theorem exceptBind_ok {e a b : Type} (x : a) (f : a → Except e b) :
    Bind.bind (Except.ok x) f = f x := rfl

theorem exceptBind_error {e a b : Type} (err : e) (f : a → Except e b) :
    Bind.bind (Except.error err) f = Except.error err := rfl

theorem runLeg_ok_length (tbl : StatesTable) (gamma R : ℝ)
    (leg : String × ℕ × ℕ) (seg : List Sample)
    (h : runLeg tbl gamma R leg = .ok seg) :
    seg.length = legSampleCount leg.1 := by
  unfold runLeg at h
  split at h
  · simp at h
  · split at h
    · simp at h
    · rw [legSampleCount]
      split_ifs at h ⊢ <;> simp_all <;>
        simp [← h, path_isentropic_length, path_const_v_length,
          path_const_p_length, path_isothermal_length]

theorem runLeg_ok_recognised (tbl : StatesTable) (gamma R : ℝ)
    (leg : String × ℕ × ℕ) (seg : List Sample)
    (h : runLeg tbl gamma R leg = .ok seg) :
    recognisedKind leg.1 := by
  unfold runLeg at h
  rw [recognisedKind]
  split at h
  · simp at h
  · split at h
    · simp at h
    · split_ifs at h <;> simp_all

theorem runLegsTail_ok_length (tbl : StatesTable) (gamma R : ℝ) :
    ∀ (ls : List (String × ℕ × ℕ)) (r : List Sample),
      runLegsTail tbl gamma R ls = .ok r →
      r.length + ls.length = (ls.map fun l => legSampleCount l.1).sum := by
  intro ls
  induction ls with
  | nil => intro r h; simp [runLegsTail] at h; simp [← h]
  | cons l ls ih =>
    intro r h
    rw [runLegsTail] at h
    cases h1 : runLeg tbl gamma R l with
    | error e => rw [h1, exceptBind_error] at h; exact Except.noConfusion h
    | ok seg =>
      rw [h1, exceptBind_ok] at h
      cases h2 : runLegsTail tbl gamma R ls with
      | error e => rw [h2, exceptBind_error] at h; exact Except.noConfusion h
      | ok rest =>
        rw [h2, exceptBind_ok] at h
        simp only [Except.ok.injEq] at h
        have hlen := runLeg_ok_length tbl gamma R l seg h1
        have hrec := runLeg_ok_recognised tbl gamma R l seg h1
        have hge : 1 ≤ legSampleCount l.1 := by
          rcases hrec with h' | h' | h' | h' <;> simp [legSampleCount, h']
        have := ih rest h2
        subst h
        simp only [List.length_append, List.length_tail, List.map_cons,
          List.sum_cons, List.length_cons]
        omega

theorem log_div_self (x : ℝ) : Real.log (x / x) = 0 := by
  rcases eq_or_ne x 0 with h | h
  · simp [h]
  · simp [div_self h]

theorem path_isentropic_head (Pa Va Ta Pb Vb gamma R : ℝ) (n : ℕ) (s_a : ℝ)
    (h : 0 < n) :
    (path_isentropic_ideal Pa Va Ta Pb Vb gamma R n s_a).head? =
      some ⟨Pa * Va ^ gamma / Va ^ gamma, Va, Ta * (Va / Va) ^ (gamma - 1), s_a⟩ := by
  rw [path_isentropic_ideal, List.head?_map, linspace_head _ _ _ h]
  simp

theorem path_const_v_head (Vconst Ta Tb R : ℝ) (n : ℕ) (s_a gamma : ℝ)
    (h : 0 < n) :
    (path_const_v_ideal Vconst Ta Tb R n s_a gamma).head? =
      some ⟨R * Ta / Vconst, Vconst, Ta, s_a⟩ := by
  rw [path_const_v_ideal, List.head?_map, linspace_head _ _ _ h]
  simp [log_div_self]

theorem path_const_p_head (Pconst Ta Tb R : ℝ) (n : ℕ) (s_a gamma : ℝ)
    (h : 0 < n) :
    (path_const_p_ideal Pconst Ta Tb R n s_a gamma).head? =
      some ⟨Pconst, R * Ta / Pconst, Ta, s_a⟩ := by
  rw [path_const_p_ideal, List.head?_map, linspace_head _ _ _ h]
  simp [log_div_self]

theorem path_isothermal_head (Tconst Va Vb R : ℝ) (n : ℕ) (s_a : ℝ)
    (h : 0 < n) :
    (path_isothermal_ideal Tconst Va Vb R n s_a).head? =
      some ⟨R * Tconst / Va, Va, Tconst, s_a⟩ := by
  rw [path_isothermal_ideal, List.head?_map, linspace_head _ _ _ h]
  simp [log_div_self]

/-- On every successful leg, the first computed sample's entropy is exactly
the leg's entropy anchor (the start state's entropy column value, or 0 when
the table has no entropy column). -/
theorem runLeg_ok_head_s (tbl : StatesTable) (gamma R : ℝ)
    (leg : String × ℕ × ℕ) (seg : List Sample)
    (h : runLeg tbl gamma R leg = .ok seg) :
    seg.head?.map Sample.s = some (legAnchor tbl leg.2.1) := by
  unfold runLeg at h
  cases hfa : tbl.rows.find? fun r => r.idx == leg.2.1 with
  | none => rw [hfa] at h; exact Except.noConfusion h
  | some a =>
    rw [hfa] at h
    cases hfb : tbl.rows.find? fun r => r.idx == leg.2.2 with
    | none => rw [hfb] at h; exact Except.noConfusion h
    | some b =>
      rw [hfb] at h
      have hanchor : legAnchor tbl leg.2.1 = if tbl.hasScol then a.s else 0 := by
        rw [legAnchor, hfa]
      rw [hanchor]
      cases htb : tbl.hasScol <;> simp only [htb, if_true, if_false,
          Bool.false_eq_true, Bool.true_eq_false] at h ⊢ <;>
        split_ifs at h <;> simp at h <;> rw [← h] <;>
        first
        | (rw [path_isentropic_head _ _ _ _ _ _ _ _ _ (by norm_num)]; rfl)
        | (rw [path_const_v_head _ _ _ _ _ _ _ (by norm_num)]; rfl)
        | (rw [path_const_p_head _ _ _ _ _ _ _ (by norm_num)]; rfl)
        | (rw [path_isothermal_head _ _ _ _ _ _ (by norm_num)]; rfl)

/-- On every successful leg whose start row is an ideal-gas state
(`P * v = R * T` with positive `v`, `T`, `R`), the first computed sample
reproduces the start row's pressure, volume, temperature and anchor
entropy exactly. -/
theorem runLeg_ok_head (tbl : StatesTable) (gamma R : ℝ)
    (leg : String × ℕ × ℕ) (seg : List Sample) (a : StateRow)
    (ha : (tbl.rows.find? fun r => r.idx == leg.2.1) = some a)
    (h : runLeg tbl gamma R leg = .ok seg)
    (hv : 0 < a.v) (hT : 0 < a.T) (hR : 0 < R)
    (hig : a.P * a.v = R * a.T) :
    seg.head? = some ⟨a.P, a.v, a.T, if tbl.hasScol then a.s else 0⟩ := by
  have hPv : 0 < a.P * a.v := by rw [hig]; exact mul_pos hR hT
  have hP : 0 < a.P := by nlinarith
  have hig' : R * a.T = a.P * a.v := hig.symm
  unfold runLeg at h
  rw [ha] at h
  cases hfb : tbl.rows.find? fun r => r.idx == leg.2.2 with
  | none => rw [hfb] at h; exact Except.noConfusion h
  | some b =>
    rw [hfb] at h
    cases htb : tbl.hasScol <;> simp only [htb, if_true, if_false,
        Bool.false_eq_true, Bool.true_eq_false] at h ⊢ <;>
      split_ifs at h <;> simp at h <;> rw [← h] <;>
      first
      | (rw [path_isentropic_head _ _ _ _ _ _ _ _ _ (by norm_num), mul_div_assoc,
          div_self (ne_of_gt (Real.rpow_pos_of_pos hv gamma)), mul_one,
          div_self (ne_of_gt hv), Real.one_rpow, mul_one])
      | (rw [path_const_v_head _ _ _ _ _ _ _ (by norm_num), hig', mul_div_assoc,
          div_self (ne_of_gt hv), mul_one])
      | (rw [path_const_p_head _ _ _ _ _ _ _ (by norm_num), hig',
          mul_comm a.P a.v, mul_div_assoc, div_self (ne_of_gt hP), mul_one])
      | (rw [path_isothermal_head _ _ _ _ _ _ (by norm_num), hig', mul_div_assoc,
          div_self (ne_of_gt hv), mul_one])

/-- A successful `smooth_path_ideal` call over `N` legs returns exactly
`(sum of the per-leg sample counts) - (N - 1)` samples. -/
theorem smooth_path_ok_length (tbl : StatesTable)
    (legs : List (String × ℕ × ℕ)) (gamma R : ℝ) (out : List Sample)
    (h : smooth_path_ideal tbl legs gamma R = .ok out) :
    out.length = (legs.map fun l => legSampleCount l.1).sum - (legs.length - 1) := by
  match legs with
  | [] => simp [smooth_path_ideal] at h
  | l0 :: rest =>
    rw [smooth_path_ideal] at h
    cases h1 : runLeg tbl gamma R l0 with
    | error e => rw [h1, exceptBind_error] at h; exact Except.noConfusion h
    | ok seg0 =>
      rw [h1, exceptBind_ok] at h
      cases h2 : runLegsTail tbl gamma R rest with
      | error e => rw [h2, exceptBind_error] at h; exact Except.noConfusion h
      | ok tailSegs =>
        rw [h2, exceptBind_ok] at h
        simp only [Except.ok.injEq] at h
        have hlen := runLeg_ok_length tbl gamma R l0 seg0 h1
        have htail := runLegsTail_ok_length tbl gamma R rest tailSegs h2
        subst h
        simp only [List.length_append, List.map_cons, List.sum_cons,
          List.length_cons]
        omega

/-- C3 (amended): every leg of `smooth_path_ideal` — the first and every
subsequent leg alike — takes as its entropy anchor its own start state's
entropy column value from the states table, defaulting to 0 when the table
exposes no entropy column; the first sample of each leg's computed segment
carries exactly this anchor as its entropy.  (The original claim — that each
leg after the first anchors to the running entropy of the previous leg's
last sample — fails on the code; see the counterexample.) -/
theorem C3_entropy_anchor (tbl : StatesTable) (gamma R : ℝ)
    (leg : String × ℕ × ℕ) (seg : List Sample)
    (h : runLeg tbl gamma R leg = .ok seg) :
    seg.head?.map Sample.s = some (legAnchor tbl leg.2.1) ∧
    (∀ a, (tbl.rows.find? fun r => r.idx == leg.2.1) = some a →
      legAnchor tbl leg.2.1 = if tbl.hasScol then a.s else 0) ∧
    (tbl.hasScol = false → legAnchor tbl leg.2.1 = 0) := by
  refine ⟨runLeg_ok_head_s tbl gamma R leg seg h, ?_, ?_⟩
  · intro a ha
    rw [legAnchor, ha]
  · intro hs
    rw [legAnchor]
    cases tbl.rows.find? fun r => r.idx == leg.2.1 <;> simp [hs]

/-- Concrete instantiation of C3 (amended): a one-state table whose entropy
column holds 5 anchors its constant-volume self-leg at 5. -/
theorem C3_entropy_anchor_witness :
    runLeg ⟨[⟨1, 1, 1, 1, 5⟩], true⟩ 2 1 ("cv", 1, 1) =
      .ok (path_const_v_ideal 1 1 1 1 70 5 2) ∧
    (path_const_v_ideal 1 1 1 1 70 5 2).head?.map Sample.s =
      some (legAnchor ⟨[⟨1, 1, 1, 1, 5⟩], true⟩ 1) ∧
    legAnchor ⟨[⟨1, 1, 1, 1, 5⟩], true⟩ 1 = 5 :=
  ⟨rfl, (C3_entropy_anchor ⟨[⟨1, 1, 1, 1, 5⟩], true⟩ 2 1 ("cv", 1, 1) _ rfl).1, rfl⟩

/-- States table for the C3 counterexample: both states carry entropy 0 in
the table, but the constant-volume law accumulates entropy 1 from state 1
(T = 1) to state 2 (T = e). -/
def c3Tbl : StatesTable := ⟨[⟨1, 1, 1, 1, 0⟩, ⟨2, 1, 1, Real.exp 1, 0⟩], true⟩

/-- Legs for the C3 counterexample: a heating constant-volume leg followed by
a degenerate constant-volume leg that starts at state 2. -/
def c3Legs : List (String × ℕ × ℕ) := [("cv", 1, 2), ("cv", 2, 2)]

/-- The entropy of sample `i` of a path-sampler result, when present. -/
def pathEntropyAt (r : Except PathError (List Sample)) (i : ℕ) : Option ℝ :=
  r.toOption.bind fun out => out[i]?.map Sample.s

/-- The entropy of the last sample of a single computed leg, when present. -/
def legLastEntropy (r : Except PathError (List Sample)) : Option ℝ :=
  r.toOption.bind fun seg => seg.getLast?.map Sample.s

theorem path_const_v_s_at (Vconst Ta Tb R : ℝ) (n i : ℕ) (s_a gamma : ℝ)
    (h : i < n) :
    (path_const_v_ideal Vconst Ta Tb R n s_a gamma)[i]?.map Sample.s =
      some (s_a + (cv_from_gamma_R gamma R).2 *
        Real.log ((Ta + (Tb - Ta) * (i : ℝ) / ((n : ℝ) - 1)) / Ta)) := by
  have hx : i < (linspace Ta Tb n).length := by
    rw [linspace_length]; exact h
  rw [path_const_v_ideal, List.getElem?_map, List.getElem?_eq_getElem hx,
    Option.map_some', Option.map_some', linspace_getElem]

/-- C3 counterexample: on `c3Tbl`/`c3Legs` the first leg's last sample (index
69 of the concatenated path) has running entropy 1, yet the second leg is
anchored at 0 — its anchor `legAnchor c3Tbl 2` is state 2's table entropy 0,
and its samples (e.g. index 70 of the path) all carry entropy 0, not 1.  Were
the claim true, the second leg — a constant-volume leg with equal start and
end temperatures, all of whose samples carry exactly its anchor — would carry
entropy 1.  So the anchor is not the previous leg's last running sample. -/
theorem C3_entropy_anchor_counterexample :
    pathEntropyAt (smooth_path_ideal c3Tbl c3Legs 2 1) 69 = some 1 ∧
    pathEntropyAt (smooth_path_ideal c3Tbl c3Legs 2 1) 70 = some 0 ∧
    legLastEntropy (runLeg c3Tbl 2 1 ("cv", 1, 2)) = some 1 ∧
    legAnchor c3Tbl 2 = 0 ∧
    (1 : ℝ) ≠ 0 := by
  have hok : smooth_path_ideal c3Tbl c3Legs 2 1 =
      .ok (path_const_v_ideal 1 1 (Real.exp 1) 1 70 0 2 ++
        ((path_const_v_ideal 1 (Real.exp 1) (Real.exp 1) 1 70 0 2).tail ++ [])) := rfl
  have hlen1 : (path_const_v_ideal 1 1 (Real.exp 1) 1 70 0 2).length = 70 :=
    path_const_v_length 1 1 (Real.exp 1) 1 70 0 2
  have hcv : (cv_from_gamma_R 2 1).2 = 1 := by
    rw [cv_from_gamma_R]
    norm_num
  have hs69 : (path_const_v_ideal 1 1 (Real.exp 1) 1 70 0 2)[69]?.map Sample.s
      = some 1 := by
    rw [path_const_v_s_at 1 1 (Real.exp 1) 1 70 69 0 2 (by norm_num), hcv]
    have harg : (1 : ℝ) + (Real.exp 1 - 1) * ((69 : ℕ) : ℝ) / (((70 : ℕ) : ℝ) - 1)
        = Real.exp 1 := by
      norm_num
    rw [harg, div_one, Real.log_exp]
    norm_num
  have hs1' : (path_const_v_ideal 1 (Real.exp 1) (Real.exp 1) 1 70 0 2)[1]?.map
      Sample.s = some 0 := by
    rw [path_const_v_s_at 1 (Real.exp 1) (Real.exp 1) 1 70 1 0 2 (by norm_num), hcv]
    have harg : Real.exp 1 + (Real.exp 1 - Real.exp 1) * ((1 : ℕ) : ℝ) /
        (((70 : ℕ) : ℝ) - 1) = Real.exp 1 := by
      norm_num
    rw [harg, div_self (Real.exp_ne_zero 1), Real.log_one]
    norm_num
  refine ⟨?_, ?_, ?_, rfl, by norm_num⟩
  · rw [pathEntropyAt, hok]
    simp only [Except.toOption, Option.some_bind]
    rw [List.getElem?_append_left (by rw [hlen1]; norm_num)]
    exact hs69
  · rw [pathEntropyAt, hok]
    simp only [Except.toOption, Option.some_bind]
    rw [List.append_nil, List.getElem?_append_right (by rw [hlen1]),
      hlen1, List.getElem?_tail]
    exact hs1'
  · have hok1 : runLeg c3Tbl 2 1 ("cv", 1, 2) =
        .ok (path_const_v_ideal 1 1 (Real.exp 1) 1 70 0 2) := rfl
    rw [legLastEntropy, hok1]
    simp only [Except.toOption, Option.some_bind]
    rw [List.getLast?_eq_getElem?, hlen1]
    exact hs69

/-- C4: for a successful path-sampler invocation the output has exactly
`(sum of per-leg sample counts) - (N - 1)` samples; and when the table has an
entropy column and the first leg's start state is a positive ideal-gas state,
the very first output sample reproduces that state's pressure, volume,
temperature and entropy. -/
theorem C4_concat_shape :
    (∀ tbl legs gamma R out, smooth_path_ideal tbl legs gamma R = .ok out →
        out.length =
          (legs.map fun l => legSampleCount l.1).sum - (legs.length - 1)) ∧
    (∀ tbl (l0 : String × ℕ × ℕ) rest gamma R out a,
        smooth_path_ideal tbl (l0 :: rest) gamma R = .ok out →
        (tbl.rows.find? fun r => r.idx == l0.2.1) = some a →
        tbl.hasScol = true → 0 < a.v → 0 < a.T → 0 < R →
        a.P * a.v = R * a.T →
        out.head? = some ⟨a.P, a.v, a.T, a.s⟩) := by
  constructor
  · exact smooth_path_ok_length
  · intro tbl l0 rest gamma R out a h ha hs hv hT hR hig
    rw [smooth_path_ideal] at h
    cases h1 : runLeg tbl gamma R l0 with
    | error e => rw [h1, exceptBind_error] at h; exact Except.noConfusion h
    | ok seg0 =>
      rw [h1, exceptBind_ok] at h
      cases h2 : runLegsTail tbl gamma R rest with
      | error e => rw [h2, exceptBind_error] at h; exact Except.noConfusion h
      | ok tailSegs =>
        rw [h2, exceptBind_ok] at h
        simp only [Except.ok.injEq] at h
        have hhead := runLeg_ok_head tbl gamma R l0 seg0 a ha h1 hv hT hR hig
        rw [hs, if_pos rfl] at hhead
        rw [← h, List.head?_append, hhead]
        rfl

/-- Concrete instantiation of C4: one isentropic leg over a one-state
ideal-gas table gives 90 samples and starts at the state point. -/
theorem C4_concat_shape_witness :
    ∃ out, smooth_path_ideal ⟨[⟨1, 1, 1, 1, 0⟩], true⟩ [("isen", 1, 1)] 2 1 =
        .ok out ∧
      out.length = 90 ∧ out.head? = some ⟨1, 1, 1, 0⟩ := by
  have hok : smooth_path_ideal ⟨[⟨1, 1, 1, 1, 0⟩], true⟩ [("isen", 1, 1)] 2 1 =
      .ok (path_isentropic_ideal 1 1 1 1 1 2 1 90 0 ++ []) := rfl
  refine ⟨_, hok, ?_, ?_⟩
  · have := C4_concat_shape.1 _ _ _ _ _ hok
    rw [this]
    rfl
  · have := C4_concat_shape.2 ⟨[⟨1, 1, 1, 1, 0⟩], true⟩ ("isen", 1, 1) [] 2 1 _
      ⟨1, 1, 1, 1, 0⟩ hok rfl rfl (by norm_num) (by norm_num) (by norm_num)
      (by norm_num)
    exact this

theorem runLeg_error_unknown (tbl : StatesTable) (gamma R : ℝ)
    (leg : String × ℕ × ℕ) (s : String)
    (h : runLeg tbl gamma R leg = .error (.unknownKind s)) :
    leg.1 = s ∧ ¬ recognisedKind s := by
  unfold runLeg at h
  cases hfa : tbl.rows.find? fun r => r.idx == leg.2.1 with
  | none => rw [hfa] at h; simp at h
  | some a =>
    rw [hfa] at h
    cases hfb : tbl.rows.find? fun r => r.idx == leg.2.2 with
    | none => rw [hfb] at h; simp at h
    | some b =>
      rw [hfb] at h
      cases htb : tbl.hasScol <;>
        simp only [htb, if_true, if_false, Bool.false_eq_true,
          Bool.true_eq_false] at h <;>
        split_ifs at h with k1 k2 k3 k4 <;> simp at h <;>
        exact ⟨h, by rw [← h, recognisedKind]; push_neg; exact ⟨k1, k2, k3, k4⟩⟩

theorem runLeg_ok_of (tbl : StatesTable) (gamma R : ℝ)
    (leg : String × ℕ × ℕ) (hrec : recognisedKind leg.1)
    (hres : legResolves tbl leg) :
    ∃ seg, runLeg tbl gamma R leg = .ok seg := by
  obtain ⟨ha, hb⟩ := hres
  obtain ⟨a, ha'⟩ := Option.isSome_iff_exists.mp ha
  obtain ⟨b, hb'⟩ := Option.isSome_iff_exists.mp hb
  unfold runLeg
  rw [ha', hb']
  rcases hrec with hk | hk | hk | hk <;> simp [hk]

theorem runLeg_unknown_of (tbl : StatesTable) (gamma R : ℝ)
    (leg : String × ℕ × ℕ) (hres : legResolves tbl leg)
    (hunrec : ¬ recognisedKind leg.1) :
    runLeg tbl gamma R leg = .error (.unknownKind leg.1) := by
  obtain ⟨ha, hb⟩ := hres
  obtain ⟨a, ha'⟩ := Option.isSome_iff_exists.mp ha
  obtain ⟨b, hb'⟩ := Option.isSome_iff_exists.mp hb
  rw [recognisedKind] at hunrec
  push_neg at hunrec
  obtain ⟨k1, k2, k3, k4⟩ := hunrec
  unfold runLeg
  rw [ha', hb']
  simp [k1, k2, k3, k4]

theorem runLegsTail_error_unknown (tbl : StatesTable) (gamma R : ℝ) :
    ∀ (ls : List (String × ℕ × ℕ)) (s : String),
      runLegsTail tbl gamma R ls = .error (.unknownKind s) →
      ∃ l ∈ ls, l.1 = s ∧ ¬ recognisedKind s := by
  intro ls
  induction ls with
  | nil => intro s h; simp [runLegsTail] at h
  | cons l ls ih =>
    intro s h
    rw [runLegsTail] at h
    cases h1 : runLeg tbl gamma R l with
    | error e =>
      rw [h1, exceptBind_error] at h
      simp only [Except.error.injEq] at h
      subst h
      exact ⟨l, by simp, runLeg_error_unknown tbl gamma R l s h1⟩
    | ok seg =>
      rw [h1, exceptBind_ok] at h
      cases h2 : runLegsTail tbl gamma R ls with
      | error e =>
        rw [h2, exceptBind_error] at h
        simp only [Except.error.injEq] at h
        subst h
        obtain ⟨l', hl', hrest⟩ := ih s h2
        exact ⟨l', by simp [hl'], hrest⟩
      | ok rest => rw [h2, exceptBind_ok] at h; simp at h

theorem runLegsTail_ok_of (tbl : StatesTable) (gamma R : ℝ) :
    ∀ ls : List (String × ℕ × ℕ),
      (∀ l ∈ ls, recognisedKind l.1) → (∀ l ∈ ls, legResolves tbl l) →
      ∃ r, runLegsTail tbl gamma R ls = .ok r := by
  intro ls
  induction ls with
  | nil => intro _ _; exact ⟨[], rfl⟩
  | cons l ls ih =>
    intro hrec hres
    obtain ⟨seg, hseg⟩ := runLeg_ok_of tbl gamma R l (hrec l (by simp))
      (hres l (by simp))
    obtain ⟨r, hr⟩ := ih (fun l' hl' => hrec l' (by simp [hl']))
      (fun l' hl' => hres l' (by simp [hl']))
    refine ⟨seg.tail ++ r, ?_⟩
    rw [runLegsTail, hseg, exceptBind_ok, hr, exceptBind_ok]

theorem runLegsTail_unknown_of (tbl : StatesTable) (gamma R : ℝ) :
    ∀ ls : List (String × ℕ × ℕ),
      (∀ l ∈ ls, legResolves tbl l) → (∃ l ∈ ls, ¬ recognisedKind l.1) →
      ∃ s, runLegsTail tbl gamma R ls = .error (.unknownKind s) ∧
        ¬ recognisedKind s := by
  intro ls
  induction ls with
  | nil => intro _ h; simp at h
  | cons l ls ih =>
    intro hres hbad
    by_cases hl : recognisedKind l.1
    · obtain ⟨seg, hseg⟩ := runLeg_ok_of tbl gamma R l hl (hres l (by simp))
      obtain ⟨l', hl', hbad'⟩ := hbad
      have hl'ls : l' ∈ ls := by
        rcases List.mem_cons.mp hl' with h' | h'
        · exact absurd (h' ▸ hl) hbad'
        · exact h'
      obtain ⟨s, hs, hs'⟩ := ih (fun x hx => hres x (by simp [hx])) ⟨l', hl'ls, hbad'⟩
      refine ⟨s, ?_, hs'⟩
      rw [runLegsTail, hseg, exceptBind_ok, hs, exceptBind_error]
    · refine ⟨l.1, ?_, hl⟩
      rw [runLegsTail, runLeg_unknown_of tbl gamma R l (hres l (by simp)) hl,
        exceptBind_error]

/-- C9 (amended): the path sampler raises the unsupported-process error only
for a leg whose kind is not one of the four recognised kinds; with only
recognised kinds it is never raised (whatever the labels), and with resolving
labels the call succeeds outright; conversely, when every leg's labels
resolve and some leg's kind is unrecognised, the unsupported-process error is
raised.  (As originally stated — unsupported-process raised exactly when some
kind is unrecognised — the claim fails when a label fails to resolve; see the
counterexample.) -/
theorem C9_unknown_kind :
    (∀ tbl legs gamma R s,
        smooth_path_ideal tbl legs gamma R = .error (.unknownKind s) →
        ∃ l ∈ legs, l.1 = s ∧ ¬ recognisedKind s) ∧
    (∀ tbl legs gamma R s, (∀ l ∈ legs, recognisedKind l.1) →
        smooth_path_ideal tbl legs gamma R ≠ .error (.unknownKind s)) ∧
    (∀ tbl legs gamma R, legs ≠ [] → (∀ l ∈ legs, recognisedKind l.1) →
        (∀ l ∈ legs, legResolves tbl l) →
        ∃ out, smooth_path_ideal tbl legs gamma R = .ok out) ∧
    (∀ tbl legs gamma R, (∀ l ∈ legs, legResolves tbl l) →
        (∃ l ∈ legs, ¬ recognisedKind l.1) →
        ∃ s, smooth_path_ideal tbl legs gamma R = .error (.unknownKind s) ∧
          ¬ recognisedKind s) := by
  have honly : ∀ tbl legs gamma R s,
      smooth_path_ideal tbl legs gamma R = .error (.unknownKind s) →
      ∃ l ∈ legs, l.1 = s ∧ ¬ recognisedKind s := by
    intro tbl legs gamma R s h
    match legs with
    | [] => simp [smooth_path_ideal] at h
    | l0 :: rest =>
      rw [smooth_path_ideal] at h
      cases h1 : runLeg tbl gamma R l0 with
      | error e =>
        rw [h1, exceptBind_error] at h
        simp only [Except.error.injEq] at h
        subst h
        exact ⟨l0, by simp, runLeg_error_unknown tbl gamma R l0 s h1⟩
      | ok seg0 =>
        rw [h1, exceptBind_ok] at h
        cases h2 : runLegsTail tbl gamma R rest with
        | error e =>
          rw [h2, exceptBind_error] at h
          simp only [Except.error.injEq] at h
          subst h
          obtain ⟨l', hl', hrest⟩ := runLegsTail_error_unknown tbl gamma R rest s h2
          exact ⟨l', by simp [hl'], hrest⟩
        | ok rest' => rw [h2, exceptBind_ok] at h; simp at h
  refine ⟨honly, ?_, ?_, ?_⟩
  · intro tbl legs gamma R s hrec h
    obtain ⟨l, hl, hls, hbad⟩ := honly tbl legs gamma R s h
    exact hbad (hls ▸ hrec l hl)
  · intro tbl legs gamma R hne hrec hres
    match legs with
    | [] => exact absurd rfl hne
    | l0 :: rest =>
      obtain ⟨seg0, hseg0⟩ := runLeg_ok_of tbl gamma R l0 (hrec l0 (by simp))
        (hres l0 (by simp))
      obtain ⟨r, hr⟩ := runLegsTail_ok_of tbl gamma R rest
        (fun l' hl' => hrec l' (by simp [hl']))
        (fun l' hl' => hres l' (by simp [hl']))
      refine ⟨seg0 ++ r, ?_⟩
      rw [smooth_path_ideal, hseg0, exceptBind_ok, hr, exceptBind_ok]
  · intro tbl legs gamma R hres hbad
    match legs with
    | [] => simp at hbad
    | l0 :: rest =>
      by_cases hl0 : recognisedKind l0.1
      · obtain ⟨seg0, hseg0⟩ := runLeg_ok_of tbl gamma R l0 hl0 (hres l0 (by simp))
        obtain ⟨l', hl', hbad'⟩ := hbad
        have hl'rest : l' ∈ rest := by
          rcases List.mem_cons.mp hl' with h' | h'
          · exact absurd (h' ▸ hl0) hbad'
          · exact h'
        obtain ⟨s, hs, hs'⟩ := runLegsTail_unknown_of tbl gamma R rest
          (fun x hx => hres x (by simp [hx])) ⟨l', hl'rest, hbad'⟩
        refine ⟨s, ?_, hs'⟩
        rw [smooth_path_ideal, hseg0, exceptBind_ok, hs, exceptBind_error]
      · refine ⟨l0.1, ?_, hl0⟩
        rw [smooth_path_ideal,
          runLeg_unknown_of tbl gamma R l0 (hres l0 (by simp)) hl0,
          exceptBind_error]

/-- C9 counterexample: a leg with the unrecognised kind `bogus` whose end
label 2 does not resolve makes the sampler fail with the state-lookup error,
not the unsupported-process error — so "fails with unsupported-process
exactly when some leg's kind is unrecognised" is false as stated. -/
theorem C9_unknown_kind_counterexample :
    smooth_path_ideal ⟨[⟨1, 1, 1, 1, 0⟩], true⟩ [("bogus", 1, 2)] 2 1 =
      .error (.stateNotFound 2) ∧
    ¬ recognisedKind "bogus" ∧
    PathError.stateNotFound 2 ≠ PathError.unknownKind "bogus" := by
  refine ⟨rfl, ?_, by simp⟩
  rw [recognisedKind]
  push_neg
  refine ⟨by simp, by simp, by simp, by simp⟩

/-- Concrete instantiation of C9 (amended): with resolving labels, an
all-recognised leg list succeeds, and inserting a `bogus` leg raises the
unsupported-process error. -/
theorem C9_unknown_kind_witness :
    (∃ out, smooth_path_ideal ⟨[⟨1, 1, 1, 1, 0⟩], true⟩ [("isen", 1, 1)] 2 1 =
        .ok out) ∧
    (∃ s, smooth_path_ideal ⟨[⟨1, 1, 1, 1, 0⟩], true⟩
        [("isen", 1, 1), ("bogus", 1, 1)] 2 1 = .error (.unknownKind s) ∧
      ¬ recognisedKind s) := by
  constructor
  · refine C9_unknown_kind.2.2.1 _ _ 2 1 (by simp) ?_ ?_
    · intro l hl
      simp only [List.mem_singleton] at hl
      subst hl
      exact Or.inl rfl
    · intro l hl
      simp only [List.mem_singleton] at hl
      subst hl
      exact ⟨rfl, rfl⟩
  · refine C9_unknown_kind.2.2.2 _ _ 2 1 ?_ ?_
    · intro l hl
      rcases List.mem_cons.mp hl with h' | h'
      · subst h'; exact ⟨rfl, rfl⟩
      · simp only [List.mem_singleton] at h'
        subst h'
        exact ⟨rfl, rfl⟩
    · refine ⟨("bogus", 1, 1), by simp, ?_⟩
      rw [recognisedKind]
      push_neg
      refine ⟨by simp, by simp, by simp, by simp⟩

/-- Result of `otto_cycle` (src/cycles/otto.py): the states table and the
metrics dict keys `eta_th`, `Qin_kJ_per_kg`, `Qout_kJ_per_kg`,
`Wnet_kJ_per_kg`, `compression_ratio_r`. -/
structure OttoResult where
  states : List StateRow
  eta_th : ℝ
  Qin : ℝ
  Qout : ℝ
  Wnet : ℝ
  compression_ratio_r : ℝ

/-- otto.py line 31: `T2 = T1 * r ** (gamma - 1)`. -/
def otto_T2 (T1 r gamma : ℝ) : ℝ := T1 * r ^ (gamma - 1)

/-- otto.py line 40: `T4 = T3 / r ** (gamma - 1)`. -/
def otto_T4 (T3 r gamma : ℝ) : ℝ := T3 / r ^ (gamma - 1)

/-- otto.py line 44: `Qin = cv * (T3 - T2)` with `cv = R / (gamma - 1)`. -/
def otto_Qin (T1 r T3 gamma R : ℝ) : ℝ :=
  R / (gamma - 1) * (T3 - otto_T2 T1 r gamma)

/-- otto.py line 45: `Qout = cv * (T4 - T1)`. -/
def otto_Qout (T1 r T3 gamma R : ℝ) : ℝ :=
  R / (gamma - 1) * (otto_T4 T3 r gamma - T1)

/-- The states and metrics `otto_cycle` computes once its guards pass
(otto.py lines 23-73). -/
def otto_core (T1 P1 r T3 gamma R : ℝ) : OttoResult :=
  let cv := R / (gamma - 1)
  let v1 := R * T1 / P1
  let v2 := v1 / r
  let T2 := otto_T2 T1 r gamma
  let P2 := P1 * r ^ gamma
  let v3 := v2
  let P3 := R * T3 / v3
  let v4 := v1
  let T4 := otto_T4 T3 r gamma
  let P4 := P3 / r ^ gamma
  let s3 := cv * Real.log (T3 / T2)
  ⟨[⟨1, P1, v1, T1, 0⟩, ⟨2, P2, v2, T2, 0⟩, ⟨3, P3, v3, T3, s3⟩,
      ⟨4, P4, v4, T4, s3⟩],
    1 - otto_Qout T1 r T3 gamma R / otto_Qin T1 r T3 gamma R,
    otto_Qin T1 r T3 gamma R, otto_Qout T1 r T3 gamma R,
    otto_Qin T1 r T3 gamma R - otto_Qout T1 r T3 gamma R, r⟩

/-- `otto_cycle` (src/cycles/otto.py, defaults `T1=300`, `P1=100`, `r=8`,
`T3=1800`, `gamma=1.4`, `R=0.287`): guards at lines 18-21, then the closed
cycle; `eta = 1 - Qout / Qin` (line 47) raises `ZeroDivisionError` in Python
when `Qin = 0`, modelled by the third error branch. -/
def otto_cycle (T1 P1 r T3 gamma R : ℝ) : Except String OttoResult :=
  if r ≤ 1 then .error "Compression ratio r must be > 1"
  else if T3 ≤ T1 then .error "T3 must be > T1"
  else if otto_Qin T1 r T3 gamma R = 0 then .error "float division by zero"
  else .ok (otto_core T1 P1 r T3 gamma R)

theorem otto_cycle_ok (T1 P1 r T3 gamma R : ℝ) (h1 : ¬ r ≤ 1) (h2 : ¬ T3 ≤ T1)
    (h3 : ¬ otto_Qin T1 r T3 gamma R = 0) :
    otto_cycle T1 P1 r T3 gamma R = .ok (otto_core T1 P1 r T3 gamma R) := by
  rw [otto_cycle, if_neg h1, if_neg h2, if_neg h3]

theorem otto_cycle_ok_inv (T1 P1 r T3 gamma R : ℝ) (res : OttoResult)
    (h : otto_cycle T1 P1 r T3 gamma R = .ok res) :
    ¬ r ≤ 1 ∧ ¬ T3 ≤ T1 ∧ ¬ otto_Qin T1 r T3 gamma R = 0 ∧
      res = otto_core T1 P1 r T3 gamma R := by
  rw [otto_cycle] at h
  by_cases g1 : r ≤ 1
  · rw [if_pos g1] at h; exact absurd h (by simp)
  rw [if_neg g1] at h
  by_cases g2 : T3 ≤ T1
  · rw [if_pos g2] at h; exact absurd h (by simp)
  rw [if_neg g2] at h
  by_cases g3 : otto_Qin T1 r T3 gamma R = 0
  · rw [if_pos g3] at h; exact absurd h (by simp)
  rw [if_neg g3] at h
  simp only [Except.ok.injEq] at h
  exact ⟨g1, g2, g3, h.symm⟩

/-- Result of `brayton_ideal` (src/cycles/brayton.py): states plus the
metrics dict keys `Wc_kJ_per_kg`, `Wt_kJ_per_kg`, `Wnet_kJ_per_kg`,
`Qin_kJ_per_kg`, `eta_th` and the back-work-ratio key (`bwr` here).  `Qout`
is the local value computed at line 39; it is used in `eta` but not exported
in the metrics dict and is carried here for specification. -/
structure BraytonResult where
  states : List StateRow
  Wc : ℝ
  Wt : ℝ
  Wnet : ℝ
  Qin : ℝ
  eta_th : ℝ
  bwr : ℝ
  Qout : ℝ

/-- brayton.py line 18: `T2 = T1 * rp ** ((gamma - 1) / gamma)`. -/
def brayton_T2 (T1 rp gamma : ℝ) : ℝ := T1 * rp ^ ((gamma - 1) / gamma)

/-- brayton.py line 19: `T4 = T3 * (1 / rp) ** ((gamma - 1) / gamma)`. -/
def brayton_T4 (T3 rp gamma : ℝ) : ℝ := T3 * (1 / rp) ^ ((gamma - 1) / gamma)

/-- brayton.py line 34: `Wc = cp * (T2 - T1)`. -/
def brayton_Wc (T1 rp gamma cp : ℝ) : ℝ := cp * (brayton_T2 T1 rp gamma - T1)

/-- brayton.py line 35: `Wt = cp * (T3 - T4)`. -/
def brayton_Wt (T3 rp gamma cp : ℝ) : ℝ := cp * (T3 - brayton_T4 T3 rp gamma)

/-- brayton.py line 38: `Qin = cp * (T3 - T2)`. -/
def brayton_Qin (T1 rp T3 gamma cp : ℝ) : ℝ :=
  cp * (T3 - brayton_T2 T1 rp gamma)

/-- brayton.py line 39: `Qout = cp * (T4 - T1)`. -/
def brayton_Qout (T1 rp T3 gamma cp : ℝ) : ℝ :=
  cp * (brayton_T4 T3 rp gamma - T1)

/-- The states and metrics `brayton_ideal` computes once its guards pass
(brayton.py lines 13-57). -/
def brayton_core (P1 T1 rp T3 gamma cp R : ℝ) : BraytonResult :=
  let P2 := P1 * rp
  let P3 := P2
  let P4 := P1
  let T2 := brayton_T2 T1 rp gamma
  let T4 := brayton_T4 T3 rp gamma
  let v1 := R * T1 / P1
  let v2 := R * T2 / P2
  let v3 := R * T3 / P3
  let v4 := R * T4 / P4
  let s2 := 0 + cp * Real.log (T2 / T1) - R * Real.log (P2 / P1)
  let s3 := s2 + cp * Real.log (T3 / T2)
  let s4 := s3 + cp * Real.log (T4 / T3) - R * Real.log (P4 / P3)
  ⟨[⟨1, P1, v1, T1, 0⟩, ⟨2, P2, v2, T2, s2⟩, ⟨3, P3, v3, T3, s3⟩,
      ⟨4, P4, v4, T4, s4⟩],
    brayton_Wc T1 rp gamma cp, brayton_Wt T3 rp gamma cp,
    brayton_Wt T3 rp gamma cp - brayton_Wc T1 rp gamma cp,
    brayton_Qin T1 rp T3 gamma cp,
    1 - brayton_Qout T1 rp T3 gamma cp / brayton_Qin T1 rp T3 gamma cp,
    brayton_Wc T1 rp gamma cp / brayton_Wt T3 rp gamma cp,
    brayton_Qout T1 rp T3 gamma cp⟩

/-- `brayton_ideal` (src/cycles/brayton.py, defaults `P1=100`, `T1=300`,
`rp=10`, `T3=1400`, `gamma=1.4`, `cp=1.004`, `R=0.287`): guard at lines
10-11; `eta = 1 - Qout / Qin` (line 40) and the back-work ratio `Wc / Wt`
(line 56) raise `ZeroDivisionError` in Python for zero denominators,
modelled by the second and third error branches. -/
def brayton_ideal (P1 T1 rp T3 gamma cp R : ℝ) : Except String BraytonResult :=
  if rp ≤ 1 then .error "Pressure ratio rp must be > 1"
  else if brayton_Qin T1 rp T3 gamma cp = 0 then .error "float division by zero"
  else if brayton_Wt T3 rp gamma cp = 0 then .error "float division by zero"
  else .ok (brayton_core P1 T1 rp T3 gamma cp R)

theorem brayton_ideal_ok (P1 T1 rp T3 gamma cp R : ℝ) (h1 : ¬ rp ≤ 1)
    (h2 : ¬ brayton_Qin T1 rp T3 gamma cp = 0)
    (h3 : ¬ brayton_Wt T3 rp gamma cp = 0) :
    brayton_ideal P1 T1 rp T3 gamma cp R =
      .ok (brayton_core P1 T1 rp T3 gamma cp R) := by
  rw [brayton_ideal, if_neg h1, if_neg h2, if_neg h3]

theorem brayton_ideal_ok_inv (P1 T1 rp T3 gamma cp R : ℝ) (res : BraytonResult)
    (h : brayton_ideal P1 T1 rp T3 gamma cp R = .ok res) :
    ¬ rp ≤ 1 ∧ ¬ brayton_Qin T1 rp T3 gamma cp = 0 ∧
      ¬ brayton_Wt T3 rp gamma cp = 0 ∧
      res = brayton_core P1 T1 rp T3 gamma cp R := by
  rw [brayton_ideal] at h
  by_cases g1 : rp ≤ 1
  · rw [if_pos g1] at h; exact absurd h (by simp)
  rw [if_neg g1] at h
  by_cases g2 : brayton_Qin T1 rp T3 gamma cp = 0
  · rw [if_pos g2] at h; exact absurd h (by simp)
  rw [if_neg g2] at h
  by_cases g3 : brayton_Wt T3 rp gamma cp = 0
  · rw [if_pos g3] at h; exact absurd h (by simp)
  rw [if_neg g3] at h
  simp only [Except.ok.injEq] at h
  exact ⟨g1, g2, g3, h.symm⟩

/-- The metrics dict `carnot_cycle` returns, one constructor per mode
(carnot.py lines 47-56): engine mode carries `Q_in_kJ_per_kg`,
`Q_out_kJ_per_kg`, `W_net_kJ_per_kg`, `eta_th`; refrigerator mode
`Q_cold_kJ_per_kg`, `W_in_kJ_per_kg`, `COP_R`; heat-pump mode
`Q_hot_kJ_per_kg`, `W_in_kJ_per_kg`, `COP_HP`. -/
inductive CarnotMetrics where
  | engine (Q_in Q_out W_net eta_th : ℝ)
  | refrigerator (Q_cold W_in cop_R : ℝ)
  | heat_pump (Q_hot W_in cop_HP : ℝ)

/-- Result of `carnot_cycle` (src/cycles/carnot.py). -/
structure CarnotResult where
  states : List StateRow
  metrics : CarnotMetrics

/-- carnot.py line 43: `Qh = Th_K * (s2 - s1)` with `s1 = 0`, `s2 = ds`. -/
def carnot_Qh (Th ds : ℝ) : ℝ := Th * (ds - 0)

/-- carnot.py line 44: `Qc = Tc_K * (s2 - s1)`. -/
def carnot_Qc (Tc ds : ℝ) : ℝ := Tc * (ds - 0)

/-- carnot.py line 45: `Wnet = Qh - Qc`. -/
def carnot_Wnet (Th Tc ds : ℝ) : ℝ := carnot_Qh Th ds - carnot_Qc Tc ds

/-- The states DataFrame of `carnot_cycle` (carnot.py lines 16-41): the T-s
rectangle is exact; the P-v points are the conceptual ideal-gas Carnot
construction from the caller-supplied volume scale `v1` (default 1.0):
`v2 = v1 * exp(ds / R)`, `v3 = v2 * (Th / Tc) ** (1 / (gamma - 1))`,
`v4 = v1 * (Th / Tc) ** (1 / (gamma - 1))`, and `P = R * T / v` per state. -/
def carnot_states (Th Tc ds gamma R v1 : ℝ) : List StateRow :=
  let v2 := v1 * Real.exp (ds / R)
  let factor := (Th / Tc) ^ (1 / (gamma - 1))
  let v3 := v2 * factor
  let v4 := v1 * factor
  [⟨1, R * Th / v1, v1, Th, 0⟩, ⟨2, R * Th / v2, v2, Th, ds⟩,
    ⟨3, R * Tc / v3, v3, Tc, ds⟩, ⟨4, R * Tc / v4, v4, Tc, 0⟩]

/-- `carnot_cycle` (src/cycles/carnot.py, defaults `Th=600`, `Tc=300`,
`ds=1`, `mode="engine"`, `gamma=1.4`, `R=0.287`, `v1=1.0`): guards at lines
11-14, unknown-mode error at line 58; in engine mode `eta = 1 - Tc / Th`
(line 48) raises `ZeroDivisionError` in Python when `Th = 0`, modelled by an
explicit error branch (the refrigerator/heat-pump divisions by `Wnet` cannot
be zero once the guards pass, so no branch is needed there). -/
def carnot_cycle (Th Tc ds : ℝ) (mode : String) (gamma R v1 : ℝ) :
    Except String CarnotResult :=
  if Th ≤ Tc then .error "Th must be > Tc for Carnot cycle."
  else if ds ≤ 0 then .error "Δs must be > 0"
  else if mode = "engine" then
    if Th = 0 then .error "float division by zero"
    else
      .ok ⟨carnot_states Th Tc ds gamma R v1,
        .engine (carnot_Qh Th ds) (carnot_Qc Tc ds) (carnot_Wnet Th Tc ds)
          (1 - Tc / Th)⟩
  else if mode = "refrigerator" then
    .ok ⟨carnot_states Th Tc ds gamma R v1,
      .refrigerator (carnot_Qc Tc ds) (carnot_Wnet Th Tc ds)
        (carnot_Qc Tc ds / carnot_Wnet Th Tc ds)⟩
  else if mode = "heat_pump" then
    .ok ⟨carnot_states Th Tc ds gamma R v1,
      .heat_pump (carnot_Qh Th ds) (carnot_Wnet Th Tc ds)
        (carnot_Qh Th ds / carnot_Wnet Th Tc ds)⟩
  else .error "mode must be one of: engine, refrigerator, heat_pump"

theorem carnot_cycle_ok_inv (Th Tc ds : ℝ) (mode : String) (gamma R v1 : ℝ)
    (res : CarnotResult)
    (h : carnot_cycle Th Tc ds mode gamma R v1 = .ok res) :
    ¬ Th ≤ Tc ∧ ¬ ds ≤ 0 ∧
      res.states = carnot_states Th Tc ds gamma R v1 ∧
      ((mode = "engine" ∧ ¬ Th = 0 ∧
          res.metrics = .engine (carnot_Qh Th ds) (carnot_Qc Tc ds)
            (carnot_Wnet Th Tc ds) (1 - Tc / Th)) ∨
        (mode = "refrigerator" ∧
          res.metrics = .refrigerator (carnot_Qc Tc ds) (carnot_Wnet Th Tc ds)
            (carnot_Qc Tc ds / carnot_Wnet Th Tc ds)) ∨
        (mode = "heat_pump" ∧
          res.metrics = .heat_pump (carnot_Qh Th ds) (carnot_Wnet Th Tc ds)
            (carnot_Qh Th ds / carnot_Wnet Th Tc ds))) := by
  rw [carnot_cycle] at h
  by_cases g1 : Th ≤ Tc
  · rw [if_pos g1] at h; exact absurd h (by simp)
  rw [if_neg g1] at h
  by_cases g2 : ds ≤ 0
  · rw [if_pos g2] at h; exact absurd h (by simp)
  rw [if_neg g2] at h
  refine ⟨g1, g2, ?_⟩
  by_cases m1 : mode = "engine"
  · rw [if_pos m1] at h
    by_cases g3 : Th = 0
    · rw [if_pos g3] at h; exact absurd h (by simp)
    rw [if_neg g3] at h
    simp only [Except.ok.injEq] at h
    rw [← h]
    exact ⟨rfl, Or.inl ⟨m1, g3, rfl⟩⟩
  rw [if_neg m1] at h
  by_cases m2 : mode = "refrigerator"
  · rw [if_pos m2] at h
    simp only [Except.ok.injEq] at h
    rw [← h]
    exact ⟨rfl, Or.inr (Or.inl ⟨m2, rfl⟩)⟩
  rw [if_neg m2] at h
  by_cases m3 : mode = "heat_pump"
  · rw [if_pos m3] at h
    simp only [Except.ok.injEq] at h
    rw [← h]
    exact ⟨rfl, Or.inr (Or.inr ⟨m3, rfl⟩)⟩
  · rw [if_neg m3] at h
    exact absurd h (by simp)

/-- Result of `diesel_cycle` (src/cycles/diesel.py): states plus the metrics
dict keys `eta_th`, `Qin_kJ_per_kg`, `Qout_kJ_per_kg`, `Wnet_kJ_per_kg`,
`compression_ratio_r`, the cutoff ratio `rc`. -/
structure DieselResult where
  states : List StateRow
  eta_th : ℝ
  Qin : ℝ
  Qout : ℝ
  Wnet : ℝ
  compression_ratio_r : ℝ
  rc_echo : ℝ

/-- diesel.py line 28: `v1 = R * T1 / P1`. -/
def diesel_v1 (T1 P1 R : ℝ) : ℝ := R * T1 / P1

/-- diesel.py line 32: `T2 = T1 * r ** (gamma - 1)`. -/
def diesel_T2 (T1 r gamma : ℝ) : ℝ := T1 * r ^ (gamma - 1)

/-- diesel.py line 42: `T4 = T3 * ((v3 / v4) ** (gamma - 1))` with
`T3 = T2 * rc`, `v3 = rc * v2`, `v2 = v1 / r`, `v4 = v1`. -/
def diesel_T4 (T1 P1 r rc gamma R : ℝ) : ℝ :=
  diesel_T2 T1 r gamma * rc *
    (rc * (diesel_v1 T1 P1 R / r) / diesel_v1 T1 P1 R) ^ (gamma - 1)

/-- diesel.py line 46: `Qin = cp * (T3 - T2)` with `cp = gamma * cv`. -/
def diesel_Qin (T1 r rc gamma R : ℝ) : ℝ :=
  gamma * (R / (gamma - 1)) * (diesel_T2 T1 r gamma * rc - diesel_T2 T1 r gamma)

/-- diesel.py line 47: `Qout = cv * (T4 - T1)`. -/
def diesel_Qout (T1 P1 r rc gamma R : ℝ) : ℝ :=
  R / (gamma - 1) * (diesel_T4 T1 P1 r rc gamma R - T1)

/-- The states and metrics `diesel_cycle` computes once its guards pass
(diesel.py lines 24-73). -/
def diesel_core (T1 P1 r rc gamma R : ℝ) : DieselResult :=
  let cp := gamma * (R / (gamma - 1))
  let v1 := diesel_v1 T1 P1 R
  let v2 := v1 / r
  let T2 := diesel_T2 T1 r gamma
  let P2 := P1 * r ^ gamma
  let v3 := rc * v2
  let T3 := T2 * rc
  let P3 := P2
  let v4 := v1
  let T4 := diesel_T4 T1 P1 r rc gamma R
  let P4 := P3 * (v3 / v4) ^ gamma
  let s3 := 0 + cp * Real.log (T3 / T2)
  ⟨[⟨1, P1, v1, T1, 0⟩, ⟨2, P2, v2, T2, 0⟩, ⟨3, P3, v3, T3, s3⟩,
      ⟨4, P4, v4, T4, s3⟩],
    1 - diesel_Qout T1 P1 r rc gamma R / diesel_Qin T1 r rc gamma R,
    diesel_Qin T1 r rc gamma R, diesel_Qout T1 P1 r rc gamma R,
    diesel_Qin T1 r rc gamma R - diesel_Qout T1 P1 r rc gamma R, r, rc⟩

/-- `diesel_cycle` (src/cycles/diesel.py, defaults `T1=300`, `P1=100`,
`r=18`, `rc=2`, `gamma=1.4`, `R=0.287`): guards at lines 19-22; the
`eta = 1 - Qout / Qin` division (line 49) raises `ZeroDivisionError` in
Python when `Qin = 0`, modelled by the third error branch. -/
def diesel_cycle (T1 P1 r rc gamma R : ℝ) : Except String DieselResult :=
  if r ≤ 1 then .error "Compression ratio r must be > 1"
  else if rc ≤ 1 then .error "Cutoff ratio rc must be > 1"
  else if diesel_Qin T1 r rc gamma R = 0 then .error "float division by zero"
  else .ok (diesel_core T1 P1 r rc gamma R)

theorem diesel_cycle_ok (T1 P1 r rc gamma R : ℝ) (h1 : ¬ r ≤ 1)
    (h2 : ¬ rc ≤ 1) (h3 : ¬ diesel_Qin T1 r rc gamma R = 0) :
    diesel_cycle T1 P1 r rc gamma R = .ok (diesel_core T1 P1 r rc gamma R) := by
  rw [diesel_cycle, if_neg h1, if_neg h2, if_neg h3]

theorem diesel_cycle_ok_inv (T1 P1 r rc gamma R : ℝ) (res : DieselResult)
    (h : diesel_cycle T1 P1 r rc gamma R = .ok res) :
    ¬ r ≤ 1 ∧ ¬ rc ≤ 1 ∧ ¬ diesel_Qin T1 r rc gamma R = 0 ∧
      res = diesel_core T1 P1 r rc gamma R := by
  rw [diesel_cycle] at h
  by_cases g1 : r ≤ 1
  · rw [if_pos g1] at h; exact absurd h (by simp)
  rw [if_neg g1] at h
  by_cases g2 : rc ≤ 1
  · rw [if_pos g2] at h; exact absurd h (by simp)
  rw [if_neg g2] at h
  by_cases g3 : diesel_Qin T1 r rc gamma R = 0
  · rw [if_pos g3] at h; exact absurd h (by simp)
  rw [if_neg g3] at h
  simp only [Except.ok.injEq] at h
  exact ⟨g1, g2, g3, h.symm⟩

/-- Result of `dual_cycle` (src/cycles/dual.py): states plus the metrics
dict keys `eta_th`, `Qin_kJ_per_kg`, `Qout_kJ_per_kg`, `Wnet_kJ_per_kg`,
`compression_ratio_r`, `alpha_P3_over_P2`, the cutoff ratio `rc`. -/
structure DualResult where
  states : List StateRow
  eta_th : ℝ
  Qin : ℝ
  Qout : ℝ
  Wnet : ℝ
  compression_ratio_r : ℝ
  alpha_P3_over_P2 : ℝ
  rc_echo : ℝ

/-- dual.py line 30: `v1 = R * T1 / P1`. -/
def dual_v1 (T1 P1 R : ℝ) : ℝ := R * T1 / P1

/-- dual.py line 34: `T2 = T1 * r ** (gamma - 1)`. -/
def dual_T2 (T1 r gamma : ℝ) : ℝ := T1 * r ^ (gamma - 1)

/-- dual.py line 49: `T5 = T4 * ((v4 / v5) ** (gamma - 1))` with
`T4 = rc * T3`, `T3 = alpha * T2`, `v4 = rc * v3`, `v3 = v2 = v1 / r`,
`v5 = v1`. -/
def dual_T5 (T1 P1 r alpha rc gamma R : ℝ) : ℝ :=
  rc * (alpha * dual_T2 T1 r gamma) *
    (rc * (dual_v1 T1 P1 R / r) / dual_v1 T1 P1 R) ^ (gamma - 1)

/-- dual.py lines 53-55: `Qin = cv * (T3 - T2) + cp * (T4 - T3)`. -/
def dual_Qin (T1 r alpha rc gamma R : ℝ) : ℝ :=
  R / (gamma - 1) * (alpha * dual_T2 T1 r gamma - dual_T2 T1 r gamma) +
    gamma * (R / (gamma - 1)) *
      (rc * (alpha * dual_T2 T1 r gamma) - alpha * dual_T2 T1 r gamma)

/-- dual.py line 56: `Qout = cv * (T5 - T1)`. -/
def dual_Qout (T1 P1 r alpha rc gamma R : ℝ) : ℝ :=
  R / (gamma - 1) * (dual_T5 T1 P1 r alpha rc gamma R - T1)

/-- The states and metrics `dual_cycle` computes once its guards pass
(dual.py lines 27-83). -/
def dual_core (T1 P1 r alpha rc gamma R : ℝ) : DualResult :=
  let cv := R / (gamma - 1)
  let cp := gamma * cv
  let v1 := dual_v1 T1 P1 R
  let v2 := v1 / r
  let T2 := dual_T2 T1 r gamma
  let P2 := P1 * r ^ gamma
  let P3 := alpha * P2
  let T3 := alpha * T2
  let v3 := v2
  let v4 := rc * v3
  let T4 := rc * T3
  let P4 := P3
  let v5 := v1
  let T5 := dual_T5 T1 P1 r alpha rc gamma R
  let P5 := P4 * (v4 / v5) ^ gamma
  let s3 := 0 + cv * Real.log (T3 / T2)
  let s4 := s3 + cp * Real.log (T4 / T3)
  ⟨[⟨1, P1, v1, T1, 0⟩, ⟨2, P2, v2, T2, 0⟩, ⟨3, P3, v3, T3, s3⟩,
      ⟨4, P4, v4, T4, s4⟩, ⟨5, P5, v5, T5, s4⟩],
    1 - dual_Qout T1 P1 r alpha rc gamma R / dual_Qin T1 r alpha rc gamma R,
    dual_Qin T1 r alpha rc gamma R, dual_Qout T1 P1 r alpha rc gamma R,
    dual_Qin T1 r alpha rc gamma R - dual_Qout T1 P1 r alpha rc gamma R,
    r, alpha, rc⟩

/-- `dual_cycle` (src/cycles/dual.py, defaults `T1=300`, `P1=100`, `r=14`,
`alpha=1.5`, `rc=1.3`, `gamma=1.4`, `R=0.287`): guards at lines 20-25; the
`eta = 1 - Qout / Qin` division (line 58) raises `ZeroDivisionError` in
Python when `Qin = 0`, modelled by the fourth error branch. -/
def dual_cycle (T1 P1 r alpha rc gamma R : ℝ) : Except String DualResult :=
  if r ≤ 1 then .error "Compression ratio r must be > 1"
  else if alpha ≤ 1 then .error "alpha (P3/P2) must be > 1"
  else if rc ≤ 1 then .error "rc (v4/v3) must be > 1"
  else if dual_Qin T1 r alpha rc gamma R = 0 then .error "float division by zero"
  else .ok (dual_core T1 P1 r alpha rc gamma R)

theorem dual_cycle_ok (T1 P1 r alpha rc gamma R : ℝ) (h1 : ¬ r ≤ 1)
    (h2 : ¬ alpha ≤ 1) (h3 : ¬ rc ≤ 1)
    (h4 : ¬ dual_Qin T1 r alpha rc gamma R = 0) :
    dual_cycle T1 P1 r alpha rc gamma R =
      .ok (dual_core T1 P1 r alpha rc gamma R) := by
  rw [dual_cycle, if_neg h1, if_neg h2, if_neg h3, if_neg h4]

theorem dual_cycle_ok_inv (T1 P1 r alpha rc gamma R : ℝ) (res : DualResult)
    (h : dual_cycle T1 P1 r alpha rc gamma R = .ok res) :
    ¬ r ≤ 1 ∧ ¬ alpha ≤ 1 ∧ ¬ rc ≤ 1 ∧
      ¬ dual_Qin T1 r alpha rc gamma R = 0 ∧
      res = dual_core T1 P1 r alpha rc gamma R := by
  rw [dual_cycle] at h
  by_cases g1 : r ≤ 1
  · rw [if_pos g1] at h; exact absurd h (by simp)
  rw [if_neg g1] at h
  by_cases g2 : alpha ≤ 1
  · rw [if_pos g2] at h; exact absurd h (by simp)
  rw [if_neg g2] at h
  by_cases g3 : rc ≤ 1
  · rw [if_pos g3] at h; exact absurd h (by simp)
  rw [if_neg g3] at h
  by_cases g4 : dual_Qin T1 r alpha rc gamma R = 0
  · rw [if_pos g4] at h; exact absurd h (by simp)
  rw [if_neg g4] at h
  simp only [Except.ok.injEq] at h
  exact ⟨g1, g2, g3, g4, h.symm⟩


/-- C1: every air-standard solver's returned metrics satisfy the energy
balance `W_net = Q_in - Q_out`: for Carnot (engine mode) `W_net = Q_h - Q_c`
by construction; for Brayton the net work `Wt - Wc` equals `Qin - Qout`; for
Otto, Diesel and Dual `Wnet` is computed as `Qin - Qout` directly. -/
theorem C1_energy_balance :
    (∀ Th Tc ds mode gamma R v1 res Qin Qout W eta,
        carnot_cycle Th Tc ds mode gamma R v1 = .ok res →
        res.metrics = .engine Qin Qout W eta → W = Qin - Qout) ∧
    (∀ P1 T1 rp T3 gamma cp R res,
        brayton_ideal P1 T1 rp T3 gamma cp R = .ok res →
        res.Wnet = res.Wt - res.Wc ∧ res.Wnet = res.Qin - res.Qout) ∧
    (∀ T1 P1 r T3 gamma R res, otto_cycle T1 P1 r T3 gamma R = .ok res →
        res.Wnet = res.Qin - res.Qout) ∧
    (∀ T1 P1 r rc gamma R res, diesel_cycle T1 P1 r rc gamma R = .ok res →
        res.Wnet = res.Qin - res.Qout) ∧
    (∀ T1 P1 r alpha rc gamma R res,
        dual_cycle T1 P1 r alpha rc gamma R = .ok res →
        res.Wnet = res.Qin - res.Qout) := by
  refine ⟨?_, ?_, ?_, ?_, ?_⟩
  · intro Th Tc ds mode gamma R v1 res Qin Qout W eta h hm
    obtain ⟨-, -, -, hcase⟩ := carnot_cycle_ok_inv _ _ _ _ _ _ _ _ h
    rcases hcase with ⟨-, -, hmet⟩ | ⟨-, hmet⟩ | ⟨-, hmet⟩ <;> rw [hmet] at hm
    · simp only [CarnotMetrics.engine.injEq] at hm
      obtain ⟨h1, h2, h3, -⟩ := hm
      rw [← h1, ← h2, ← h3, carnot_Wnet]
    · exact absurd hm (by simp)
    · exact absurd hm (by simp)
  · intro P1 T1 rp T3 gamma cp R res h
    obtain ⟨-, -, -, hres⟩ := brayton_ideal_ok_inv _ _ _ _ _ _ _ _ h
    subst hres
    refine ⟨rfl, ?_⟩
    show brayton_Wt T3 rp gamma cp - brayton_Wc T1 rp gamma cp =
      brayton_Qin T1 rp T3 gamma cp - brayton_Qout T1 rp T3 gamma cp
    rw [brayton_Wt, brayton_Wc, brayton_Qin, brayton_Qout]
    ring
  · intro T1 P1 r T3 gamma R res h
    obtain ⟨-, -, -, hres⟩ := otto_cycle_ok_inv _ _ _ _ _ _ _ h
    subst hres
    rfl
  · intro T1 P1 r rc gamma R res h
    obtain ⟨-, -, -, hres⟩ := diesel_cycle_ok_inv _ _ _ _ _ _ _ h
    subst hres
    rfl
  · intro T1 P1 r alpha rc gamma R res h
    obtain ⟨-, -, -, -, hres⟩ := dual_cycle_ok_inv _ _ _ _ _ _ _ _ h
    subst hres
    rfl

/-- C2: every successful Otto invocation reports
`eta_th = 1 - r ^ (1 - gamma)`; in particular with `gamma = 1.4`, `r = 8`
the efficiency is `1 - 8 ^ (-0.4)`; and the efficiency is independent of
`T1`, `P1` and `T3`. -/
theorem C2_otto_efficiency :
    (∀ T1 P1 r T3 gamma R res, otto_cycle T1 P1 r T3 gamma R = .ok res →
        res.eta_th = 1 - r ^ (1 - gamma)) ∧
    (∀ T1 P1 T3 R res, otto_cycle T1 P1 8 T3 1.4 R = .ok res →
        res.eta_th = 1 - 8 ^ (-(0.4) : ℝ)) ∧
    (∀ T1 P1 T3 T1h P1h T3h r gamma R res resh,
        otto_cycle T1 P1 r T3 gamma R = .ok res →
        otto_cycle T1h P1h r T3h gamma R = .ok resh →
        res.eta_th = resh.eta_th) := by
  have main : ∀ T1 P1 r T3 gamma R res, otto_cycle T1 P1 r T3 gamma R = .ok res →
      res.eta_th = 1 - r ^ (1 - gamma) := by
    intro T1 P1 r T3 gamma R res h
    obtain ⟨g1, g2, g3, hres⟩ := otto_cycle_ok_inv _ _ _ _ _ _ _ h
    subst hres
    have hr1 : (1:ℝ) < r := not_le.mp g1
    have hr0 : (0:ℝ) < r := by linarith
    have hrp : (0:ℝ) < r ^ (gamma - 1) := Real.rpow_pos_of_pos hr0 _
    show 1 - otto_Qout T1 r T3 gamma R / otto_Qin T1 r T3 gamma R =
      1 - r ^ (1 - gamma)
    rw [otto_Qin] at g3
    obtain ⟨hcv, hT⟩ := mul_ne_zero_iff.mp g3
    have key : otto_Qout T1 r T3 gamma R / otto_Qin T1 r T3 gamma R =
        r ^ (1 - gamma) := by
      have hT4 : otto_T4 T3 r gamma - T1 =
          (T3 - otto_T2 T1 r gamma) / r ^ (gamma - 1) := by
        rw [otto_T4, otto_T2]
        field_simp
        ring
      rw [otto_Qout, hT4, otto_Qin,
        show (1 : ℝ) - gamma = -(gamma - 1) by ring,
        Real.rpow_neg (le_of_lt hr0), ← mul_div_assoc, div_div,
        mul_comm (r ^ (gamma - 1)), div_mul_cancel_left₀ g3]
    rw [key]
  refine ⟨main, ?_, ?_⟩
  · intro T1 P1 T3 R res h
    rw [main T1 P1 8 T3 1.4 R res h,
      show ((1 : ℝ) - 1.4) = (-(0.4) : ℝ) by norm_num]
  · intro T1 P1 T3 T1h P1h T3h r gamma R res resh h hh
    rw [main _ _ _ _ _ _ _ h, main _ _ _ _ _ _ _ hh]

/-- C6: state 1 of every air-standard solver satisfies the ideal-gas
relation `P1 * v1 = R * T1` (for Carnot the solver takes the scale `v1` as
input and derives `P1 = R * Th / v1`, so the relation holds by construction;
the other four compute `v1 = R * T1 / P1`), and the volume scale does not
affect any dimensionless metric: Carnot's whole metrics mapping, Otto's,
Diesel's and Dual's `eta_th`, and Brayton's `eta_th` and back-work ratio are
unchanged when the scale input (`v1` for Carnot, `P1` otherwise) changes. -/
theorem C6_reference_volume :
    (∀ Th Tc ds mode gamma R v1 res,
        carnot_cycle Th Tc ds mode gamma R v1 = .ok res → v1 ≠ 0 →
        ∃ row, res.states.head? = some row ∧ row.P * row.v = R * row.T) ∧
    (∀ Th Tc ds mode gamma R v1 v1h res resh,
        carnot_cycle Th Tc ds mode gamma R v1 = .ok res →
        carnot_cycle Th Tc ds mode gamma R v1h = .ok resh →
        res.metrics = resh.metrics) ∧
    (∀ T1 P1 r T3 gamma R res, otto_cycle T1 P1 r T3 gamma R = .ok res →
        P1 ≠ 0 →
        ∃ row, res.states.head? = some row ∧ row.P * row.v = R * row.T) ∧
    (∀ T1 P1 P1h r T3 gamma R res resh,
        otto_cycle T1 P1 r T3 gamma R = .ok res →
        otto_cycle T1 P1h r T3 gamma R = .ok resh →
        res.eta_th = resh.eta_th) ∧
    (∀ P1 T1 rp T3 gamma cp R res,
        brayton_ideal P1 T1 rp T3 gamma cp R = .ok res → P1 ≠ 0 →
        ∃ row, res.states.head? = some row ∧ row.P * row.v = R * row.T) ∧
    (∀ P1 P1h T1 rp T3 gamma cp R res resh,
        brayton_ideal P1 T1 rp T3 gamma cp R = .ok res →
        brayton_ideal P1h T1 rp T3 gamma cp R = .ok resh →
        res.eta_th = resh.eta_th ∧ res.bwr = resh.bwr) ∧
    (∀ T1 P1 r rc gamma R res, diesel_cycle T1 P1 r rc gamma R = .ok res →
        P1 ≠ 0 →
        ∃ row, res.states.head? = some row ∧ row.P * row.v = R * row.T) ∧
    (∀ T1 P1 P1h r rc gamma R res resh,
        diesel_cycle T1 P1 r rc gamma R = .ok res →
        diesel_cycle T1 P1h r rc gamma R = .ok resh →
        P1 ≠ 0 → P1h ≠ 0 → R ≠ 0 → T1 ≠ 0 →
        res.eta_th = resh.eta_th) ∧
    (∀ T1 P1 r alpha rc gamma R res,
        dual_cycle T1 P1 r alpha rc gamma R = .ok res → P1 ≠ 0 →
        ∃ row, res.states.head? = some row ∧ row.P * row.v = R * row.T) ∧
    (∀ T1 P1 P1h r alpha rc gamma R res resh,
        dual_cycle T1 P1 r alpha rc gamma R = .ok res →
        dual_cycle T1 P1h r alpha rc gamma R = .ok resh →
        P1 ≠ 0 → P1h ≠ 0 → R ≠ 0 → T1 ≠ 0 →
        res.eta_th = resh.eta_th) := by
  have hratio : ∀ (rc r v : ℝ), v ≠ 0 → r ≠ 0 → rc * (v / r) / v = rc / r := by
    intro rc r v hv hr
    field_simp
    ring
  refine ⟨?_, ?_, ?_, ?_, ?_, ?_, ?_, ?_, ?_, ?_⟩
  · intro Th Tc ds mode gamma R v1 res h hv1
    obtain ⟨-, -, hstates, -⟩ := carnot_cycle_ok_inv _ _ _ _ _ _ _ _ h
    refine ⟨⟨1, R * Th / v1, v1, Th, 0⟩, ?_, ?_⟩
    · rw [hstates, carnot_states]
      rfl
    · show R * Th / v1 * v1 = R * Th
      rw [div_mul_cancel₀ _ hv1]
  · intro Th Tc ds mode gamma R v1 v1h res resh h hh
    obtain ⟨-, -, -, hcase⟩ := carnot_cycle_ok_inv _ _ _ _ _ _ _ _ h
    obtain ⟨-, -, -, hcaseh⟩ := carnot_cycle_ok_inv _ _ _ _ _ _ _ _ hh
    rcases hcase with ⟨m1, -, hmet⟩ | ⟨m1, hmet⟩ | ⟨m1, hmet⟩ <;>
      rcases hcaseh with ⟨m2, -, hmeth⟩ | ⟨m2, hmeth⟩ | ⟨m2, hmeth⟩ <;>
      first
      | (rw [hmet, hmeth]; done)
      | (rw [m1] at m2; exact absurd m2 (by decide))
  · intro T1 P1 r T3 gamma R res h hP1
    obtain ⟨-, -, -, hres⟩ := otto_cycle_ok_inv _ _ _ _ _ _ _ h
    subst hres
    refine ⟨⟨1, P1, R * T1 / P1, T1, 0⟩, rfl, ?_⟩
    show P1 * (R * T1 / P1) = R * T1
    rw [mul_comm, div_mul_cancel₀ _ hP1]
  · intro T1 P1 P1h r T3 gamma R res resh h hh
    obtain ⟨-, -, -, hres⟩ := otto_cycle_ok_inv _ _ _ _ _ _ _ h
    obtain ⟨-, -, -, hresh⟩ := otto_cycle_ok_inv _ _ _ _ _ _ _ hh
    subst hres
    subst hresh
    rfl
  · intro P1 T1 rp T3 gamma cp R res h hP1
    obtain ⟨-, -, -, hres⟩ := brayton_ideal_ok_inv _ _ _ _ _ _ _ _ h
    subst hres
    refine ⟨⟨1, P1, R * T1 / P1, T1, 0⟩, rfl, ?_⟩
    show P1 * (R * T1 / P1) = R * T1
    rw [mul_comm, div_mul_cancel₀ _ hP1]
  · intro P1 P1h T1 rp T3 gamma cp R res resh h hh
    obtain ⟨-, -, -, hres⟩ := brayton_ideal_ok_inv _ _ _ _ _ _ _ _ h
    obtain ⟨-, -, -, hresh⟩ := brayton_ideal_ok_inv _ _ _ _ _ _ _ _ hh
    subst hres
    subst hresh
    exact ⟨rfl, rfl⟩
  · intro T1 P1 r rc gamma R res h hP1
    obtain ⟨-, -, -, hres⟩ := diesel_cycle_ok_inv _ _ _ _ _ _ _ h
    subst hres
    refine ⟨⟨1, P1, diesel_v1 T1 P1 R, T1, 0⟩, rfl, ?_⟩
    show P1 * diesel_v1 T1 P1 R = R * T1
    rw [diesel_v1, mul_comm, div_mul_cancel₀ _ hP1]
  · intro T1 P1 P1h r rc gamma R res resh h hh hP1 hP1h hR hT1
    obtain ⟨g1, -, -, hres⟩ := diesel_cycle_ok_inv _ _ _ _ _ _ _ h
    obtain ⟨-, -, -, hresh⟩ := diesel_cycle_ok_inv _ _ _ _ _ _ _ hh
    subst hres
    subst hresh
    have hr : r ≠ 0 := by
      have : (1:ℝ) < r := not_le.mp g1
      linarith
    have hv1 : diesel_v1 T1 P1 R ≠ 0 := by
      rw [diesel_v1]
      exact div_ne_zero (mul_ne_zero hR hT1) hP1
    have hv1h : diesel_v1 T1 P1h R ≠ 0 := by
      rw [diesel_v1]
      exact div_ne_zero (mul_ne_zero hR hT1) hP1h
    have hT4 : diesel_T4 T1 P1 r rc gamma R = diesel_T4 T1 P1h r rc gamma R := by
      rw [diesel_T4, diesel_T4, hratio rc r _ hv1 hr, hratio rc r _ hv1h hr]
    show 1 - diesel_Qout T1 P1 r rc gamma R / diesel_Qin T1 r rc gamma R =
      1 - diesel_Qout T1 P1h r rc gamma R / diesel_Qin T1 r rc gamma R
    rw [diesel_Qout, diesel_Qout, hT4]
  · intro T1 P1 r alpha rc gamma R res h hP1
    obtain ⟨-, -, -, -, hres⟩ := dual_cycle_ok_inv _ _ _ _ _ _ _ _ h
    subst hres
    refine ⟨⟨1, P1, dual_v1 T1 P1 R, T1, 0⟩, rfl, ?_⟩
    show P1 * dual_v1 T1 P1 R = R * T1
    rw [dual_v1, mul_comm, div_mul_cancel₀ _ hP1]
  · intro T1 P1 P1h r alpha rc gamma R res resh h hh hP1 hP1h hR hT1
    obtain ⟨g1, -, -, -, hres⟩ := dual_cycle_ok_inv _ _ _ _ _ _ _ _ h
    obtain ⟨-, -, -, -, hresh⟩ := dual_cycle_ok_inv _ _ _ _ _ _ _ _ hh
    subst hres
    subst hresh
    have hr : r ≠ 0 := by
      have : (1:ℝ) < r := not_le.mp g1
      linarith
    have hv1 : dual_v1 T1 P1 R ≠ 0 := by
      rw [dual_v1]
      exact div_ne_zero (mul_ne_zero hR hT1) hP1
    have hv1h : dual_v1 T1 P1h R ≠ 0 := by
      rw [dual_v1]
      exact div_ne_zero (mul_ne_zero hR hT1) hP1h
    have hT5 : dual_T5 T1 P1 r alpha rc gamma R =
        dual_T5 T1 P1h r alpha rc gamma R := by
      rw [dual_T5, dual_T5, hratio rc r _ hv1 hr, hratio rc r _ hv1h hr]
    show 1 - dual_Qout T1 P1 r alpha rc gamma R / dual_Qin T1 r alpha rc gamma R =
      1 - dual_Qout T1 P1h r alpha rc gamma R / dual_Qin T1 r alpha rc gamma R
    rw [dual_Qout, dual_Qout, hT5]


/-- A resolved fluid state as returned by the external Property Provider
(spec section 6): temperature, specific volume, enthalpy, entropy, and the
vapor quality, absent outside the two-phase region. -/
structure FluidState where
  T : ℝ
  v : ℝ
  h : ℝ
  s : ℝ
  x : Option ℝ

/-- The Property Provider capability the Rankine solvers consume (the iapws
IAPWS97 constructor called with `(P, x)`, `(P, T)`, `(P, h)` or `(P, s)`;
pressures in MPa).  It is external to this repository and abstracted as a
record of total lookup functions. -/
structure Provider where
  byPx : ℝ → ℝ → FluidState
  byPT : ℝ → ℝ → FluidState
  byPh : ℝ → ℝ → FluidState
  byPs : ℝ → ℝ → FluidState

/-- `_safe_quality` (rankine_basic.py lines 6-16, rankine_reheat.py lines
6-15): the source maps a missing/NaN/raising `st.x` to `None`; in this model
the provider's quality field is already an `Option`, with `none` standing
for all of those cases, so the collapse is the identity on that field. -/
def safe_quality (st : FluidState) : Option ℝ := st.x

/-- rankine_basic.py line 40: state 1, saturated liquid at condenser
pressure (`IAPWS97(P=Pc_kPa/1000, x=0)`). -/
def rankine_st1 (prov : Provider) (Pc_kPa : ℝ) : FluidState :=
  prov.byPx (Pc_kPa / 1000) 0

/-- rankine_basic.py lines 45-46: ideal pump work `wp = v1 * (Pb - Pc)`
(kPa times m3 per kg gives kJ per kg). -/
def rankine_wp (prov : Provider) (Pc_kPa Pb_kPa : ℝ) : ℝ :=
  (rankine_st1 prov Pc_kPa).v * (Pb_kPa - Pc_kPa)

/-- rankine_basic.py line 50: state 2 resolved from boiler pressure and
`h2 = h1 + wp`. -/
def rankine_st2 (prov : Provider) (Pc_kPa Pb_kPa : ℝ) : FluidState :=
  prov.byPh (Pb_kPa / 1000)
    ((rankine_st1 prov Pc_kPa).h + rankine_wp prov Pc_kPa Pb_kPa)

/-- rankine_basic.py lines 54-57: state 3, saturated vapor at boiler
pressure, or superheated at `T3_C` when supplied. -/
def rankine_st3 (prov : Provider) (Pb_kPa : ℝ) (T3_C : Option ℝ) : FluidState :=
  match T3_C with
  | none => prov.byPx (Pb_kPa / 1000) 1
  | some t => prov.byPT (Pb_kPa / 1000) (t + 273.15)

/-- rankine_basic.py line 61: state 4, isentropic expansion to condenser
pressure (`IAPWS97(P=Pc, s=s3)`). -/
def rankine_st4 (prov : Provider) (Pc_kPa Pb_kPa : ℝ) (T3_C : Option ℝ) :
    FluidState :=
  prov.byPs (Pc_kPa / 1000) (rankine_st3 prov Pb_kPa T3_C).s

/-- rankine_basic.py line 67: `qin = h3 - h2` with `h2 = h1 + wp`. -/
def rankine_qin (prov : Provider) (Pc_kPa Pb_kPa : ℝ) (T3_C : Option ℝ) : ℝ :=
  (rankine_st3 prov Pb_kPa T3_C).h -
    ((rankine_st1 prov Pc_kPa).h + rankine_wp prov Pc_kPa Pb_kPa)

/-- One row of the Rankine states DataFrame: `State`, `P_kPa`, `T_K`,
`h_kJ_per_kg`, `s_kJ_per_kgK`, `v_m3_per_kg`, `x_quality`. -/
structure RankineRow where
  idx : ℕ
  P : ℝ
  T : ℝ
  h : ℝ
  s : ℝ
  v : ℝ
  x : Option ℝ

/-- Result of `rankine_ideal` (src/cycles/rankine_basic.py): the states
table and the metrics keys `wp_kJ_per_kg`, `wt_kJ_per_kg`, `Wnet_kJ_per_kg`,
`Qin_kJ_per_kg`, `eta_th`, `turbine_exit_quality_x`.  The saturation-dome
table (lines 90-107) is independent of the cycle states and not claimed
about, so it is not carried in this model. -/
structure RankineResult where
  states : List RankineRow
  wp : ℝ
  wt : ℝ
  Wnet : ℝ
  Qin : ℝ
  eta_th : ℝ
  turbine_exit_quality_x : Option ℝ

/-- The states and metrics `rankine_ideal` computes once its guards pass
(rankine_basic.py lines 36-88). -/
def rankine_core (prov : Provider) (Pc_kPa Pb_kPa : ℝ) (T3_C : Option ℝ) :
    RankineResult :=
  let st1 := rankine_st1 prov Pc_kPa
  let st2 := rankine_st2 prov Pc_kPa Pb_kPa
  let st3 := rankine_st3 prov Pb_kPa T3_C
  let st4 := rankine_st4 prov Pc_kPa Pb_kPa T3_C
  let wp := rankine_wp prov Pc_kPa Pb_kPa
  let wt := st3.h - st4.h
  let wnet := wt - wp
  let qin := rankine_qin prov Pc_kPa Pb_kPa T3_C
  ⟨[⟨1, Pc_kPa, st1.T, st1.h, st1.s, st1.v, safe_quality st1⟩,
      ⟨2, Pb_kPa, st2.T, st1.h + wp, st2.s, st2.v, safe_quality st2⟩,
      ⟨3, Pb_kPa, st3.T, st3.h, st3.s, st3.v, safe_quality st3⟩,
      ⟨4, Pc_kPa, st4.T, st4.h, st4.s, st4.v, safe_quality st4⟩],
    wp, wt, wnet, qin, wnet / qin, safe_quality st4⟩

/-- `rankine_ideal` (src/cycles/rankine_basic.py, defaults `Pc_kPa=10`,
`Pb_kPa=8000`, `T3_C=None`): guards at lines 31-34; the `eta = wnet / qin`
division (line 69) raises `ZeroDivisionError` in Python when `qin = 0`,
modelled by the third error branch. -/
def rankine_ideal (prov : Provider) (Pc_kPa Pb_kPa : ℝ) (T3_C : Option ℝ) :
    Except String RankineResult :=
  if Pc_kPa ≤ 0 ∨ Pb_kPa ≤ 0 then .error "Pressures must be > 0"
  else if Pb_kPa ≤ Pc_kPa then
    .error "Boiler pressure must be > condenser pressure"
  else if rankine_qin prov Pc_kPa Pb_kPa T3_C = 0 then
    .error "float division by zero"
  else .ok (rankine_core prov Pc_kPa Pb_kPa T3_C)

theorem rankine_ideal_ok (prov : Provider) (Pc_kPa Pb_kPa : ℝ)
    (T3_C : Option ℝ) (h1 : ¬ (Pc_kPa ≤ 0 ∨ Pb_kPa ≤ 0))
    (h2 : ¬ Pb_kPa ≤ Pc_kPa) (h3 : ¬ rankine_qin prov Pc_kPa Pb_kPa T3_C = 0) :
    rankine_ideal prov Pc_kPa Pb_kPa T3_C =
      .ok (rankine_core prov Pc_kPa Pb_kPa T3_C) := by
  rw [rankine_ideal, if_neg h1, if_neg h2, if_neg h3]

theorem rankine_ideal_ok_inv (prov : Provider) (Pc_kPa Pb_kPa : ℝ)
    (T3_C : Option ℝ) (res : RankineResult)
    (h : rankine_ideal prov Pc_kPa Pb_kPa T3_C = .ok res) :
    ¬ (Pc_kPa ≤ 0 ∨ Pb_kPa ≤ 0) ∧ ¬ Pb_kPa ≤ Pc_kPa ∧
      ¬ rankine_qin prov Pc_kPa Pb_kPa T3_C = 0 ∧
      res = rankine_core prov Pc_kPa Pb_kPa T3_C := by
  rw [rankine_ideal] at h
  by_cases g1 : Pc_kPa ≤ 0 ∨ Pb_kPa ≤ 0
  · rw [if_pos g1] at h; exact absurd h (by simp)
  rw [if_neg g1] at h
  by_cases g2 : Pb_kPa ≤ Pc_kPa
  · rw [if_pos g2] at h; exact absurd h (by simp)
  rw [if_neg g2] at h
  by_cases g3 : rankine_qin prov Pc_kPa Pb_kPa T3_C = 0
  · rw [if_pos g3] at h; exact absurd h (by simp)
  rw [if_neg g3] at h
  simp only [Except.ok.injEq] at h
  exact ⟨g1, g2, g3, h.symm⟩

/-- rankine_reheat.py line 46: state 1, saturated liquid at `Pc`. -/
def reheat_st1 (prov : Provider) (Pc_kPa : ℝ) : FluidState :=
  prov.byPx (Pc_kPa / 1000) 0

/-- rankine_reheat.py line 50: `wp = v1 * (Pb_kPa - Pc_kPa)`. -/
def reheat_wp (prov : Provider) (Pc_kPa Pb_kPa : ℝ) : ℝ :=
  (reheat_st1 prov Pc_kPa).v * (Pb_kPa - Pc_kPa)

/-- rankine_reheat.py line 52: state 2 from `(Pb, h1 + wp)`. -/
def reheat_st2 (prov : Provider) (Pc_kPa Pb_kPa : ℝ) : FluidState :=
  prov.byPh (Pb_kPa / 1000)
    ((reheat_st1 prov Pc_kPa).h + reheat_wp prov Pc_kPa Pb_kPa)

/-- rankine_reheat.py line 56: state 3, superheated at `(Pb, T3_C)`. -/
def reheat_st3 (prov : Provider) (Pb_kPa T3_C : ℝ) : FluidState :=
  prov.byPT (Pb_kPa / 1000) (T3_C + 273.15)

/-- rankine_reheat.py line 60: state 4, isentropic from state 3 to `Pr`. -/
def reheat_st4 (prov : Provider) (Pb_kPa Pr_kPa T3_C : ℝ) : FluidState :=
  prov.byPs (Pr_kPa / 1000) (reheat_st3 prov Pb_kPa T3_C).s

/-- rankine_reheat.py line 64: state 5, reheat outlet at `(Pr, T5_C)`. -/
def reheat_st5 (prov : Provider) (Pr_kPa T5_C : ℝ) : FluidState :=
  prov.byPT (Pr_kPa / 1000) (T5_C + 273.15)

/-- rankine_reheat.py line 68: state 6, isentropic from state 5 to `Pc`. -/
def reheat_st6 (prov : Provider) (Pc_kPa Pr_kPa T5_C : ℝ) : FluidState :=
  prov.byPs (Pc_kPa / 1000) (reheat_st5 prov Pr_kPa T5_C).s

/-- rankine_reheat.py lines 77-79: total heat input,
`qin_total = (h3 - h2) + (h5 - h4)` with `h2 = h1 + wp`. -/
def reheat_qin_total (prov : Provider) (Pc_kPa Pb_kPa Pr_kPa T3_C T5_C : ℝ) : ℝ :=
  ((reheat_st3 prov Pb_kPa T3_C).h -
      ((reheat_st1 prov Pc_kPa).h + reheat_wp prov Pc_kPa Pb_kPa)) +
    ((reheat_st5 prov Pr_kPa T5_C).h - (reheat_st4 prov Pb_kPa Pr_kPa T3_C).h)

/-- Result of `rankine_reheat_ideal` (src/cycles/rankine_reheat.py): states
and metrics keys `wp_kJ_per_kg`, `wt_hp_kJ_per_kg`, `wt_lp_kJ_per_kg`,
`wt_total_kJ_per_kg`, `Wnet_kJ_per_kg`, `Qin_boiler_kJ_per_kg`,
`Qin_reheat_kJ_per_kg`, `Qin_total_kJ_per_kg`, `eta_th`,
`turbine_exit_quality_x6`.  The saturation dome (lines 107-116) is not
claimed about and not carried. -/
structure ReheatResult where
  states : List RankineRow
  wp : ℝ
  wt_hp : ℝ
  wt_lp : ℝ
  wt : ℝ
  Wnet : ℝ
  Qin_boiler : ℝ
  Qin_reheat : ℝ
  Qin_total : ℝ
  eta_th : ℝ
  turbine_exit_quality_x6 : Option ℝ

/-- The states and metrics `rankine_reheat_ideal` computes once its guards
pass (rankine_reheat.py lines 41-105). -/
def reheat_core (prov : Provider) (Pc_kPa Pb_kPa Pr_kPa T3_C T5_C : ℝ) :
    ReheatResult :=
  let st1 := reheat_st1 prov Pc_kPa
  let st2 := reheat_st2 prov Pc_kPa Pb_kPa
  let st3 := reheat_st3 prov Pb_kPa T3_C
  let st4 := reheat_st4 prov Pb_kPa Pr_kPa T3_C
  let st5 := reheat_st5 prov Pr_kPa T5_C
  let st6 := reheat_st6 prov Pc_kPa Pr_kPa T5_C
  let wp := reheat_wp prov Pc_kPa Pb_kPa
  let wt_hp := st3.h - st4.h
  let wt_lp := st5.h - st6.h
  let wt := wt_hp + wt_lp
  let wnet := wt - wp
  let qin_boiler := st3.h - (st1.h + wp)
  let qin_reheat := st5.h - st4.h
  let qin_total := reheat_qin_total prov Pc_kPa Pb_kPa Pr_kPa T3_C T5_C
  ⟨[⟨1, Pc_kPa, st1.T, st1.h, st1.s, st1.v, safe_quality st1⟩,
      ⟨2, Pb_kPa, st2.T, st1.h + wp, st2.s, st2.v, safe_quality st2⟩,
      ⟨3, Pb_kPa, st3.T, st3.h, st3.s, st3.v, safe_quality st3⟩,
      ⟨4, Pr_kPa, st4.T, st4.h, st4.s, st4.v, safe_quality st4⟩,
      ⟨5, Pr_kPa, st5.T, st5.h, st5.s, st5.v, safe_quality st5⟩,
      ⟨6, Pc_kPa, st6.T, st6.h, st6.s, st6.v, safe_quality st6⟩],
    wp, wt_hp, wt_lp, wt, wnet, qin_boiler, qin_reheat, qin_total,
    wnet / qin_total, safe_quality st6⟩

/-- `rankine_reheat_ideal` (src/cycles/rankine_reheat.py, defaults
`Pc_kPa=10`, `Pb_kPa=8000`, `Pr_kPa=1500`, `T3_C=450`, `T5_C=450`): guards
at lines 36-39; the `eta = wnet / qin_total` division (line 81) raises
`ZeroDivisionError` in Python when `qin_total = 0`, modelled by the third
error branch. -/
def rankine_reheat_ideal (prov : Provider) (Pc_kPa Pb_kPa Pr_kPa T3_C T5_C : ℝ) :
    Except String ReheatResult :=
  if Pc_kPa ≤ 0 ∨ Pb_kPa ≤ 0 ∨ Pr_kPa ≤ 0 then .error "Pressures must be > 0"
  else if ¬ (Pb_kPa > Pr_kPa ∧ Pr_kPa > Pc_kPa) then .error "Need Pb > Pr > Pc"
  else if reheat_qin_total prov Pc_kPa Pb_kPa Pr_kPa T3_C T5_C = 0 then
    .error "float division by zero"
  else .ok (reheat_core prov Pc_kPa Pb_kPa Pr_kPa T3_C T5_C)

/-- C7: Brayton invoked with `rp = 1` fails immediately with its
invalid-parameters message; basic Rankine with `Pb ≤ Pc` and Rankine-reheat
with `Pr ≥ Pb` fail with one of their two invalid-parameters messages.  For
the two Rankine solvers the result is the same error for every property
provider, so the failure happens before any property lookup and no partial
result is returned. -/
theorem C7_invalid_parameters :
    (∀ P1 T1 T3 gamma cp R,
        brayton_ideal P1 T1 1 T3 gamma cp R =
          .error "Pressure ratio rp must be > 1") ∧
    (∀ prov Pc Pb T3C, Pb ≤ Pc →
        ∃ e, rankine_ideal prov Pc Pb T3C = .error e ∧
          (e = "Pressures must be > 0" ∨
            e = "Boiler pressure must be > condenser pressure")) ∧
    (∀ prov Pc Pb Pr T3C T5C, Pb ≤ Pr →
        ∃ e, rankine_reheat_ideal prov Pc Pb Pr T3C T5C = .error e ∧
          (e = "Pressures must be > 0" ∨ e = "Need Pb > Pr > Pc")) := by
  refine ⟨?_, ?_, ?_⟩
  · intro P1 T1 T3 gamma cp R
    rw [brayton_ideal, if_pos le_rfl]
  · intro prov Pc Pb T3C hle
    rw [rankine_ideal]
    by_cases g1 : Pc ≤ 0 ∨ Pb ≤ 0
    · exact ⟨_, by rw [if_pos g1], Or.inl rfl⟩
    · rw [if_neg g1, if_pos hle]
      exact ⟨_, rfl, Or.inr rfl⟩
  · intro prov Pc Pb Pr T3C T5C hle
    rw [rankine_reheat_ideal]
    by_cases g1 : Pc ≤ 0 ∨ Pb ≤ 0 ∨ Pr ≤ 0
    · exact ⟨_, by rw [if_pos g1], Or.inl rfl⟩
    · have g2 : ¬ (Pb > Pr ∧ Pr > Pc) := by
        intro hc
        exact absurd hc.1 (not_lt.mpr hle)
      rw [if_neg g1, if_pos g2]
      exact ⟨_, rfl, Or.inr rfl⟩

/-- C8: for a provider that satisfies the spec contract — the quality field
of a `(P, s)` lookup is absent exactly outside the two-phase region and lies
in `[0, 1]` when present — every successful basic-Rankine invocation reports
the turbine-exit quality (in both the metrics and state 4's `x_quality`
column) as `none` exactly when the expansion endpoint `st4` is outside the
two-phase region, and as a value in `[0, 1]` otherwise; and the solver's
success never depends on any quality lookup: whenever the pressure guards
hold and `qin` is nonzero it returns `.ok`, whatever the quality fields. -/
theorem C8_turbine_exit_quality :
    (∀ (prov : Provider) (TP : FluidState → Prop),
        (∀ P s, ((prov.byPs P s).x = none ↔ ¬ TP (prov.byPs P s)) ∧
          (∀ q, (prov.byPs P s).x = some q → 0 ≤ q ∧ q ≤ 1)) →
        ∀ Pc Pb T3C res, rankine_ideal prov Pc Pb T3C = .ok res →
          (res.turbine_exit_quality_x = none ↔
            ¬ TP (rankine_st4 prov Pc Pb T3C)) ∧
          (∀ q, res.turbine_exit_quality_x = some q → 0 ≤ q ∧ q ≤ 1) ∧
          res.turbine_exit_quality_x = safe_quality (rankine_st4 prov Pc Pb T3C) ∧
          res.states.map RankineRow.x =
            [safe_quality (rankine_st1 prov Pc),
              safe_quality (rankine_st2 prov Pc Pb),
              safe_quality (rankine_st3 prov Pb T3C),
              safe_quality (rankine_st4 prov Pc Pb T3C)]) ∧
    (∀ (prov : Provider) Pc Pb T3C, 0 < Pc → Pc < Pb →
        rankine_qin prov Pc Pb T3C ≠ 0 →
        ∃ res, rankine_ideal prov Pc Pb T3C = .ok res) := by
  constructor
  · intro prov TP hcontract Pc Pb T3C res h
    obtain ⟨-, -, -, hres⟩ := rankine_ideal_ok_inv _ _ _ _ _ h
    subst hres
    have hc := hcontract (Pc / 1000) (rankine_st3 prov Pb T3C).s
    exact ⟨hc.1, hc.2, rfl, rfl⟩
  · intro prov Pc Pb T3C hPc hlt hq
    refine ⟨rankine_core prov Pc Pb T3C, rankine_ideal_ok _ _ _ _ ?_ ?_ hq⟩
    · push_neg
      constructor <;> linarith
    · exact not_le.mpr hlt


/-- One tuple of saturation properties collected per grid temperature in
`vcr_ideal` (refrigeration_vcr.py lines 107-114): saturation pressure (kPa)
and the saturated-liquid/vapor enthalpies and entropies. -/
structure SatRow where
  P : ℝ
  hf : ℝ
  hg : ℝ
  sf : ℝ
  sg : ℝ

/-- The saturation-table construction of `vcr_ideal` (refrigeration_vcr.py
lines 100-125), generic in the grid and the fallible per-point lookup (the
five PropsSI saturation calls wrapped in one try/except, which `continue`s
on failure): the property rows are the successful lookups in grid order, and
the temperature column is `Tline[:len(Pline)]` — the FIRST `k` grid
temperatures, where `k` is the number of successes, zipped against the
property rows. -/
def satTable {a b : Type} (lookup : a → Option b) (grid : List a) :
    List (a × b) :=
  (grid.take (grid.filterMap lookup).length).zip (grid.filterMap lookup)

/-- The saturation table `vcr_ideal` returns: lookups over the 80-point
uniform grid `np.linspace(Te, Tc, 80)` (refrigeration_vcr.py line 101). -/
def vcr_sat_table (lookup : ℝ → Option SatRow) (Te Tc : ℝ) :
    List (ℝ × SatRow) :=
  satTable lookup (linspace Te Tc 80)

theorem length_filterMap_eq_length_filter {a b : Type} (f : a → Option b)
    (l : List a) :
    (l.filterMap f).length = (l.filter fun x => (f x).isSome).length := by
  induction l with
  | nil => rfl
  | cons x xs ih =>
    cases hf : f x with
    | none => simp [List.filterMap_cons, List.filter_cons, hf, ih]
    | some c => simp [List.filterMap_cons, List.filter_cons, hf, ih]

theorem filterMap_provenance {a b : Type} (f : a → Option b) :
    ∀ (l : List a) (j : ℕ) (y : b), (l.filterMap f)[j]? = some y →
      ∃ i x, j ≤ i ∧ l[i]? = some x ∧ f x = some y ∧
        ((l.take i).filterMap f).length = j := by
  intro l
  induction l with
  | nil => intro j y h; simp at h
  | cons x xs ih =>
    intro j y h
    cases hf : f x with
    | none =>
      rw [List.filterMap_cons_none hf] at h
      obtain ⟨i, z, hji, hz, hfz, hcount⟩ := ih j y h
      refine ⟨i + 1, z, by omega, by simpa using hz, hfz, ?_⟩
      rw [List.take_succ_cons, List.filterMap_cons_none hf, hcount]
    | some c =>
      rw [List.filterMap_cons_some hf] at h
      match j with
      | 0 =>
        rw [List.getElem?_cons_zero] at h
        simp only [Option.some.injEq] at h
        subst h
        exact ⟨0, x, le_refl 0, List.getElem?_cons_zero, hf, rfl⟩
      | j + 1 =>
        rw [List.getElem?_cons_succ] at h
        obtain ⟨i, z, hji, hz, hfz, hcount⟩ := ih j y h
        refine ⟨i + 1, z, by omega, by simpa using hz, hfz, ?_⟩
        rw [List.take_succ_cons, List.filterMap_cons_some hf, List.length_cons,
          hcount]

theorem length_filterMap_lt {a b : Type} (f : a → Option b) :
    ∀ (l : List a) (m : ℕ) (x : a), l[m]? = some x → f x = none →
      (l.filterMap f).length < l.length := by
  intro l
  induction l with
  | nil => intro m x h _; simp at h
  | cons z zs ih =>
    intro m x h hf
    match m with
    | 0 =>
      rw [List.getElem?_cons_zero] at h
      simp only [Option.some.injEq] at h
      subst h
      rw [List.filterMap_cons_none hf, List.length_cons]
      exact Nat.lt_succ_of_le (List.length_filterMap_le f zs)
    | m + 1 =>
      rw [List.getElem?_cons_succ] at h
      cases hz : f z with
      | none =>
        rw [List.filterMap_cons_none hz, List.length_cons]
        exact Nat.lt_succ_of_le (List.length_filterMap_le f zs)
      | some c =>
        rw [List.filterMap_cons_some hz, List.length_cons, List.length_cons]
        exact Nat.succ_lt_succ (ih m x h hf)

theorem filterMap_getElem_all_isSome {a b : Type} (f : a → Option b) :
    ∀ l : List a, (∀ x ∈ l, (f x).isSome) →
      ∀ j : ℕ, (l.filterMap f)[j]? = l[j]?.bind f := by
  intro l
  induction l with
  | nil => intro _ j; simp
  | cons x xs ih =>
    intro hall j
    obtain ⟨c, hc⟩ := Option.isSome_iff_exists.mp (hall x (by simp))
    rw [List.filterMap_cons_some hc]
    match j with
    | 0 => simp [hc]
    | j + 1 =>
      simp only [List.getElem?_cons_succ]
      exact ih (fun y hy => hall y (by simp [hy])) j

theorem satTable_shape {a b : Type} (lookup : a → Option b) (grid : List a) :
    (satTable lookup grid).length =
        (grid.filter fun t => (lookup t).isSome).length ∧
      (satTable lookup grid).map Prod.fst =
        grid.take (satTable lookup grid).length := by
  have hk : (grid.filterMap lookup).length ≤ grid.length :=
    List.length_filterMap_le lookup grid
  have hlen : (grid.take (grid.filterMap lookup).length).length =
      (grid.filterMap lookup).length := by
    rw [List.length_take]
    omega
  have hzip : (satTable lookup grid).length = (grid.filterMap lookup).length := by
    rw [satTable, List.length_zip, hlen]
    omega
  constructor
  · rw [hzip, length_filterMap_eq_length_filter]
  · rw [satTable, List.map_fst_zip _ _ (le_of_eq hlen), List.length_zip, hlen,
      Nat.min_self]

/-- C10: the saturation table of `vcr_ideal` has (a) one row per successful
saturation lookup on the 80-point uniform grid from `Te` to `Tc`; (b) a
temperature column equal to the first `k` grid temperatures, `k` the number
of successes; (c) when every lookup succeeds, row `j` pairs grid temperature
`j` with the properties looked up at that same temperature (correct
alignment); and (d) when the lookup at some grid index `i` fails, every row
at index `j ≥ i` pairs its displayed temperature with properties that were
evaluated at a strictly later grid index `i' > j` (the index at which
exactly `j` earlier successes occurred) — the misalignment the claim
describes. -/
theorem C10_vcr_sat_table (lookup : ℝ → Option SatRow) (Te Tc : ℝ) :
    (vcr_sat_table lookup Te Tc).length =
        ((linspace Te Tc 80).filter fun t => (lookup t).isSome).length ∧
      (vcr_sat_table lookup Te Tc).map Prod.fst =
        (linspace Te Tc 80).take (vcr_sat_table lookup Te Tc).length ∧
      ((∀ t ∈ linspace Te Tc 80, (lookup t).isSome) →
        ∀ (j : ℕ) (p : ℝ × SatRow), (vcr_sat_table lookup Te Tc)[j]? = some p →
          (linspace Te Tc 80)[j]? = some p.1 ∧ lookup p.1 = some p.2) ∧
      (∀ (i : ℕ) (t : ℝ), (linspace Te Tc 80)[i]? = some t → lookup t = none →
        ∀ (j : ℕ) (p : ℝ × SatRow), i ≤ j →
          (vcr_sat_table lookup Te Tc)[j]? = some p →
          ∃ i2 t2, j < i2 ∧ (linspace Te Tc 80)[i2]? = some t2 ∧
            lookup t2 = some p.2 ∧
            (((linspace Te Tc 80).take i2).filterMap lookup).length = j) := by
  obtain ⟨hshape1, hshape2⟩ := satTable_shape lookup (linspace Te Tc 80)
  refine ⟨hshape1, hshape2, ?_, ?_⟩
  · intro hall j p hp
    rw [vcr_sat_table, satTable, List.getElem?_zip_eq_some] at hp
    obtain ⟨h1, h2⟩ := hp
    have hjlen : j <
        ((linspace Te Tc 80).take
          ((linspace Te Tc 80).filterMap lookup).length).length := by
      rcases List.getElem?_eq_some_iff.mp h1 with ⟨hb, -⟩
      exact hb
    rw [List.length_take] at hjlen
    have hjk : j < ((linspace Te Tc 80).filterMap lookup).length :=
      lt_of_lt_of_le hjlen (min_le_left _ _)
    rw [List.getElem?_take_of_lt hjk] at h1
    have haligned := filterMap_getElem_all_isSome lookup (linspace Te Tc 80) hall j
    rw [h1, Option.some_bind] at haligned
    rw [haligned] at h2
    exact ⟨h1, h2⟩
  · intro i t hi hnone j p hij hp
    rw [vcr_sat_table, satTable, List.getElem?_zip_eq_some] at hp
    obtain ⟨-, h2⟩ := hp
    obtain ⟨i2, t2, hji2, ht2, hft2, hcount⟩ :=
      filterMap_provenance lookup (linspace Te Tc 80) j p.2 h2
    have hii2 : i < i2 := by
      rcases Nat.lt_or_ge i i2 with h3 | h3
      · exact h3
      · have heq : i = i2 := le_antisymm (le_trans hij hji2) h3
        rw [heq] at hi
        have hsame := ht2.symm.trans hi
        simp only [Option.some.injEq] at hsame
        rw [hsame] at hft2
        rw [hft2] at hnone
        exact absurd hnone (by simp)
    have hfail_in_take : ((linspace Te Tc 80).take i2)[i]? = some t := by
      rw [List.getElem?_take_of_lt hii2]
      exact hi
    have hlt := length_filterMap_lt lookup ((linspace Te Tc 80).take i2) i t
      hfail_in_take hnone
    rw [hcount, List.length_take] at hlt
    exact ⟨i2, t2, lt_of_lt_of_le hlt (min_le_left _ _), ht2, hft2, hcount⟩


theorem rpow_gamma2 (x : ℝ) : x ^ ((2:ℝ) - 1) = x := by
  rw [show ((2:ℝ) - 1) = 1 by norm_num, Real.rpow_one]

theorem rpow_four_half : (4:ℝ) ^ (((2:ℝ) - 1) / 2) = 2 := by
  rw [show (((2:ℝ) - 1) / 2) = 1 / 2 by norm_num, ← Real.sqrt_eq_rpow,
    show (4:ℝ) = 2 ^ 2 by norm_num, Real.sqrt_sq (by norm_num : (0:ℝ) ≤ 2)]

theorem rpow_quarter_half : ((1:ℝ) / 4) ^ (((2:ℝ) - 1) / 2) = 1 / 2 := by
  rw [show (((2:ℝ) - 1) / 2) = 1 / 2 by norm_num, ← Real.sqrt_eq_rpow,
    show ((1:ℝ) / 4) = (1 / 2) ^ 2 by norm_num,
    Real.sqrt_sq (by norm_num : (0:ℝ) ≤ 1 / 2)]

theorem otto_Qin_easy : otto_Qin 1 2 3 2 1 ≠ 0 := by
  rw [otto_Qin, otto_T2, rpow_gamma2]
  norm_num

theorem brayton_Qin_easy : brayton_Qin 1 4 6 2 1 ≠ 0 := by
  rw [brayton_Qin, brayton_T2, rpow_four_half]
  norm_num

theorem brayton_Wt_easy : brayton_Wt 6 4 2 1 ≠ 0 := by
  rw [brayton_Wt, brayton_T4, rpow_quarter_half]
  norm_num

theorem diesel_Qin_easy : diesel_Qin 1 2 2 2 1 ≠ 0 := by
  rw [diesel_Qin, diesel_T2, rpow_gamma2]
  norm_num

theorem dual_Qin_easy : dual_Qin 1 2 2 2 2 1 ≠ 0 := by
  rw [dual_Qin, dual_T2, rpow_gamma2]
  norm_num

theorem carnot_engine_easy_ok :
    carnot_cycle 2 1 1 "engine" 2 1 1 =
      .ok ⟨carnot_states 2 1 1 2 1 1,
        .engine (carnot_Qh 2 1) (carnot_Qc 1 1) (carnot_Wnet 2 1 1)
          (1 - 1 / 2)⟩ := by
  rw [carnot_cycle, if_neg (by norm_num : ¬ (2:ℝ) ≤ 1),
    if_neg (by norm_num : ¬ (1:ℝ) ≤ 0), if_pos rfl,
    if_neg (by norm_num : ¬ (2:ℝ) = 0)]

theorem carnot_engine_easy_ok2 :
    carnot_cycle 2 1 1 "engine" 2 1 2 =
      .ok ⟨carnot_states 2 1 1 2 1 2,
        .engine (carnot_Qh 2 1) (carnot_Qc 1 1) (carnot_Wnet 2 1 1)
          (1 - 1 / 2)⟩ := by
  rw [carnot_cycle, if_neg (by norm_num : ¬ (2:ℝ) ≤ 1),
    if_neg (by norm_num : ¬ (1:ℝ) ≤ 0), if_pos rfl,
    if_neg (by norm_num : ¬ (2:ℝ) = 0)]

/-- Concrete instantiation of C1: the energy balance at one valid input per
solver (with `gamma = 2`, `R = 1` the isentropic exponents reduce to
rational arithmetic). -/
theorem C1_energy_balance_witness :
    (∃ res Qin Qout W eta, carnot_cycle 2 1 1 "engine" 2 1 1 = .ok res ∧
        res.metrics = .engine Qin Qout W eta ∧ W = Qin - Qout) ∧
    (∃ res, brayton_ideal 1 1 4 6 2 1 1 = .ok res ∧
        res.Wnet = res.Wt - res.Wc ∧ res.Wnet = res.Qin - res.Qout) ∧
    (∃ res, otto_cycle 1 1 2 3 2 1 = .ok res ∧
        res.Wnet = res.Qin - res.Qout) ∧
    (∃ res, diesel_cycle 1 1 2 2 2 1 = .ok res ∧
        res.Wnet = res.Qin - res.Qout) ∧
    (∃ res, dual_cycle 1 1 2 2 2 2 1 = .ok res ∧
        res.Wnet = res.Qin - res.Qout) := by
  have hbr := brayton_ideal_ok 1 1 4 6 2 1 1 (by norm_num) brayton_Qin_easy
    brayton_Wt_easy
  have hot := otto_cycle_ok 1 1 2 3 2 1 (by norm_num) (by norm_num) otto_Qin_easy
  have hdi := diesel_cycle_ok 1 1 2 2 2 1 (by norm_num) (by norm_num)
    diesel_Qin_easy
  have hdu := dual_cycle_ok 1 1 2 2 2 2 1 (by norm_num) (by norm_num)
    (by norm_num) dual_Qin_easy
  refine ⟨⟨_, _, _, _, _, carnot_engine_easy_ok, rfl,
      C1_energy_balance.1 2 1 1 "engine" 2 1 1 _ _ _ _ _
        carnot_engine_easy_ok rfl⟩,
    ⟨_, hbr, C1_energy_balance.2.1 1 1 4 6 2 1 1 _ hbr⟩,
    ⟨_, hot, C1_energy_balance.2.2.1 1 1 2 3 2 1 _ hot⟩,
    ⟨_, hdi, C1_energy_balance.2.2.2.1 1 1 2 2 2 1 _ hdi⟩,
    ⟨_, hdu, C1_energy_balance.2.2.2.2 1 1 2 2 2 2 1 _ hdu⟩⟩

theorem otto_default_ok :
    otto_cycle 300 100 8 1800 1.4 0.287 =
      .ok (otto_core 300 100 8 1800 1.4 0.287) := by
  have hT2 : (8:ℝ) ^ ((1.4:ℝ) - 1) ≤ 3 := by
    have h1 : (8:ℝ) ^ ((1.4:ℝ) - 1) ≤ 8 ^ ((1:ℝ) / 2) :=
      Real.rpow_le_rpow_of_exponent_le (by norm_num) (by norm_num)
    have h2 : (8:ℝ) ^ ((1:ℝ) / 2) = Real.sqrt 8 := (Real.sqrt_eq_rpow 8).symm
    have h3 : Real.sqrt 8 ≤ Real.sqrt 9 := Real.sqrt_le_sqrt (by norm_num)
    rw [show (9:ℝ) = 3 ^ 2 by norm_num, Real.sqrt_sq (by norm_num : (0:ℝ) ≤ 3)]
      at h3
    calc (8:ℝ) ^ ((1.4:ℝ) - 1) ≤ 8 ^ ((1:ℝ) / 2) := h1
      _ = Real.sqrt 8 := h2
      _ ≤ 3 := h3
  have hq : ¬ otto_Qin 300 8 1800 1.4 0.287 = 0 := by
    rw [otto_Qin, otto_T2]
    have hpos : (0:ℝ) < 0.287 / (1.4 - 1) * (1800 - 300 * 8 ^ ((1.4:ℝ) - 1)) := by
      have : (300:ℝ) * 8 ^ ((1.4:ℝ) - 1) ≤ 900 := by nlinarith
      nlinarith
    exact ne_of_gt hpos
  exact otto_cycle_ok 300 100 8 1800 1.4 0.287 (by norm_num) (by norm_num) hq

/-- Concrete instantiation of C2: at `gamma = 2`, `r = 2` the efficiency is
`1 - 2 ^ (-1)`; at the source defaults (`gamma = 1.4`, `r = 8`) it is
`1 - 8 ^ (-0.4)`; and it is unchanged when `P1` changes. -/
theorem C2_otto_efficiency_witness :
    (∃ res, otto_cycle 1 1 2 3 2 1 = .ok res ∧
        res.eta_th = 1 - 2 ^ ((1:ℝ) - 2)) ∧
    (∃ res, otto_cycle 300 100 8 1800 1.4 0.287 = .ok res ∧
        res.eta_th = 1 - 8 ^ (-(0.4) : ℝ)) ∧
    (∃ res resh, otto_cycle 1 1 2 3 2 1 = .ok res ∧
        otto_cycle 1 2 2 3 2 1 = .ok resh ∧ res.eta_th = resh.eta_th) := by
  have hot := otto_cycle_ok 1 1 2 3 2 1 (by norm_num) (by norm_num) otto_Qin_easy
  have hot2 := otto_cycle_ok 1 2 2 3 2 1 (by norm_num) (by norm_num) otto_Qin_easy
  exact ⟨⟨_, hot, C2_otto_efficiency.1 1 1 2 3 2 1 _ hot⟩,
    ⟨_, otto_default_ok,
      C2_otto_efficiency.2.1 300 100 1800 0.287 _ otto_default_ok⟩,
    ⟨_, _, hot, hot2, C2_otto_efficiency.2.2 1 1 3 1 2 3 2 2 1 _ _ hot hot2⟩⟩

/-- Concrete instantiation of C6: the state-1 ideal-gas relation and the
scale-invariance of the dimensionless metrics, one valid input per solver,
with the scale inputs `v1` (Carnot) and `P1` (others) varied. -/
theorem C6_reference_volume_witness :
    (∃ res, carnot_cycle 2 1 1 "engine" 2 1 1 = .ok res ∧
        ∃ row, res.states.head? = some row ∧ row.P * row.v = 1 * row.T) ∧
    (∃ res resh, carnot_cycle 2 1 1 "engine" 2 1 1 = .ok res ∧
        carnot_cycle 2 1 1 "engine" 2 1 2 = .ok resh ∧
        res.metrics = resh.metrics) ∧
    (∃ res, otto_cycle 1 1 2 3 2 1 = .ok res ∧
        ∃ row, res.states.head? = some row ∧ row.P * row.v = 1 * row.T) ∧
    (∃ res resh, otto_cycle 1 1 2 3 2 1 = .ok res ∧
        otto_cycle 1 2 2 3 2 1 = .ok resh ∧ res.eta_th = resh.eta_th) ∧
    (∃ res, brayton_ideal 1 1 4 6 2 1 1 = .ok res ∧
        ∃ row, res.states.head? = some row ∧ row.P * row.v = 1 * row.T) ∧
    (∃ res resh, brayton_ideal 1 1 4 6 2 1 1 = .ok res ∧
        brayton_ideal 2 1 4 6 2 1 1 = .ok resh ∧
        res.eta_th = resh.eta_th ∧ res.bwr = resh.bwr) ∧
    (∃ res, diesel_cycle 1 1 2 2 2 1 = .ok res ∧
        ∃ row, res.states.head? = some row ∧ row.P * row.v = 1 * row.T) ∧
    (∃ res resh, diesel_cycle 1 1 2 2 2 1 = .ok res ∧
        diesel_cycle 1 2 2 2 2 1 = .ok resh ∧ res.eta_th = resh.eta_th) ∧
    (∃ res, dual_cycle 1 1 2 2 2 2 1 = .ok res ∧
        ∃ row, res.states.head? = some row ∧ row.P * row.v = 1 * row.T) ∧
    (∃ res resh, dual_cycle 1 1 2 2 2 2 1 = .ok res ∧
        dual_cycle 1 2 2 2 2 2 1 = .ok resh ∧ res.eta_th = resh.eta_th) := by
  have hbr := brayton_ideal_ok 1 1 4 6 2 1 1 (by norm_num) brayton_Qin_easy
    brayton_Wt_easy
  have hbr2 := brayton_ideal_ok 2 1 4 6 2 1 1 (by norm_num) brayton_Qin_easy
    brayton_Wt_easy
  have hot := otto_cycle_ok 1 1 2 3 2 1 (by norm_num) (by norm_num) otto_Qin_easy
  have hot2 := otto_cycle_ok 1 2 2 3 2 1 (by norm_num) (by norm_num) otto_Qin_easy
  have hdi := diesel_cycle_ok 1 1 2 2 2 1 (by norm_num) (by norm_num)
    diesel_Qin_easy
  have hdi2 := diesel_cycle_ok 1 2 2 2 2 1 (by norm_num) (by norm_num)
    diesel_Qin_easy
  have hdu := dual_cycle_ok 1 1 2 2 2 2 1 (by norm_num) (by norm_num)
    (by norm_num) dual_Qin_easy
  have hdu2 := dual_cycle_ok 1 2 2 2 2 2 1 (by norm_num) (by norm_num)
    (by norm_num) dual_Qin_easy
  refine ⟨⟨_, carnot_engine_easy_ok,
      C6_reference_volume.1 2 1 1 "engine" 2 1 1 _ carnot_engine_easy_ok
        (by norm_num)⟩,
    ⟨_, _, carnot_engine_easy_ok, carnot_engine_easy_ok2,
      C6_reference_volume.2.1 2 1 1 "engine" 2 1 1 2 _ _
        carnot_engine_easy_ok carnot_engine_easy_ok2⟩,
    ⟨_, hot, C6_reference_volume.2.2.1 1 1 2 3 2 1 _ hot (by norm_num)⟩,
    ⟨_, _, hot, hot2,
      C6_reference_volume.2.2.2.1 1 1 2 2 3 2 1 _ _ hot hot2⟩,
    ⟨_, hbr, C6_reference_volume.2.2.2.2.1 1 1 4 6 2 1 1 _ hbr (by norm_num)⟩,
    ⟨_, _, hbr, hbr2,
      C6_reference_volume.2.2.2.2.2.1 1 2 1 4 6 2 1 1 _ _ hbr hbr2⟩,
    ⟨_, hdi, C6_reference_volume.2.2.2.2.2.2.1 1 1 2 2 2 1 _ hdi
      (by norm_num)⟩,
    ⟨_, _, hdi, hdi2,
      C6_reference_volume.2.2.2.2.2.2.2.1 1 1 2 2 2 2 1 _ _ hdi hdi2
        (by norm_num) (by norm_num) (by norm_num) (by norm_num)⟩,
    ⟨_, hdu, C6_reference_volume.2.2.2.2.2.2.2.2.1 1 1 2 2 2 2 1 _ hdu
      (by norm_num)⟩,
    ⟨_, _, hdu, hdu2,
      C6_reference_volume.2.2.2.2.2.2.2.2.2 1 1 2 2 2 2 2 1 _ _ hdu hdu2
        (by norm_num) (by norm_num) (by norm_num) (by norm_num)⟩⟩

/-- A degenerate but lawful Property Provider used to instantiate the
real-fluid claims concretely: every lookup is total, echoes the relevant
defining variable, and reports quality as absent. -/
def probeProvider : Provider :=
  ⟨fun _ x => ⟨1, 0, x, 0, none⟩, fun _ T => ⟨T, 0, 0, 0, none⟩,
    fun _ h => ⟨1, 0, h, 0, none⟩, fun _ s => ⟨1, 0, 0, s, none⟩⟩

/-- Concrete instantiation of C7: each solver rejects its degenerate
boundary ordering with an invalid-parameters error, for an explicit
provider. -/
theorem C7_invalid_parameters_witness :
    brayton_ideal 1 1 1 1 1 1 1 = .error "Pressure ratio rp must be > 1" ∧
    (∃ e, rankine_ideal probeProvider 5 5 none = .error e ∧
      (e = "Pressures must be > 0" ∨
        e = "Boiler pressure must be > condenser pressure")) ∧
    (∃ e, rankine_reheat_ideal probeProvider 1 5 7 450 450 = .error e ∧
      (e = "Pressures must be > 0" ∨ e = "Need Pb > Pr > Pc")) :=
  ⟨C7_invalid_parameters.1 1 1 1 1 1 1,
    C7_invalid_parameters.2.1 probeProvider 5 5 none le_rfl,
    C7_invalid_parameters.2.2 probeProvider 1 5 7 450 450 (by norm_num)⟩

theorem rankine_probe_qin : rankine_qin probeProvider 10 8000 none ≠ 0 := by
  rw [rankine_qin, rankine_wp]
  simp only [rankine_st3, rankine_st1, probeProvider]
  norm_num

/-- Concrete instantiation of C8: with the probe provider (whose quality is
always absent, matching a two-phase predicate that is everywhere false) the
default basic-Rankine call succeeds and reports the turbine-exit quality as
absent; and the success conjunct is realised at the same input. -/
theorem C8_turbine_exit_quality_witness :
    (∃ res, rankine_ideal probeProvider 10 8000 none = .ok res ∧
        (res.turbine_exit_quality_x = none ↔ ¬ False) ∧
        (∀ q, res.turbine_exit_quality_x = some q → 0 ≤ q ∧ q ≤ 1) ∧
        res.turbine_exit_quality_x =
          safe_quality (rankine_st4 probeProvider 10 8000 none)) ∧
    (∃ res, rankine_ideal probeProvider 10 8000 none = .ok res) := by
  have hok := rankine_ideal_ok probeProvider 10 8000 none
    (by push_neg; constructor <;> norm_num) (by norm_num) rankine_probe_qin
  have hcontract : ∀ P s,
      (((probeProvider.byPs P s).x = none ↔
        ¬ (fun _ : FluidState => False) (probeProvider.byPs P s)) ∧
      (∀ q, (probeProvider.byPs P s).x = some q → 0 ≤ q ∧ q ≤ 1)) := by
    intro P s
    refine ⟨by simp [probeProvider], fun q hq => absurd hq ?_⟩
    simp [probeProvider]
  obtain ⟨hiff, hbound, hx4, -⟩ :=
    C8_turbine_exit_quality.1 probeProvider (fun _ => False) hcontract
      10 8000 none _ hok
  exact ⟨⟨_, hok, hiff, hbound, hx4⟩,
    C8_turbine_exit_quality.2 probeProvider 10 8000 none (by norm_num)
      (by norm_num) rankine_probe_qin⟩

/-- The constant properties row used by the C10 instantiations. -/
def satProbeRow : SatRow := ⟨0, 0, 0, 0, 0⟩

/-- A lookup that succeeds at every temperature. -/
def satLookupAll : ℝ → Option SatRow := fun _ => some satProbeRow

/-- A lookup that fails exactly at temperatures `≤ 0`. -/
def satLookupFail : ℝ → Option SatRow :=
  fun t => if t ≤ 0 then none else some satProbeRow

theorem filterMap_zero_of_first_fail {a b : Type} (f : a → Option b)
    (l : List a) (a0 a1 : a) (c : b) (h0 : l[0]? = some a0)
    (h1 : l[1]? = some a1) (hf0 : f a0 = none) (hf1 : f a1 = some c) :
    (l.filterMap f)[0]? = some c := by
  match l with
  | [] => simp at h0
  | x :: xs =>
    rw [List.getElem?_cons_zero] at h0
    simp only [Option.some.injEq] at h0
    subst h0
    match xs with
    | [] => simp at h1
    | y :: ys =>
      rw [List.getElem?_cons_succ, List.getElem?_cons_zero] at h1
      simp only [Option.some.injEq] at h1
      subst h1
      rw [List.filterMap_cons_none hf0, List.filterMap_cons_some hf1,
        List.getElem?_cons_zero]

/-- Concrete instantiation of C10 on the grid from 0 to 79: with a total
lookup the table is aligned; with a lookup failing exactly at the first
grid point (temperature 0), row 0 displays temperature 0 but carries the
properties evaluated at a strictly later grid point. -/
theorem C10_vcr_sat_table_witness :
    (∀ t ∈ linspace 0 79 80, (satLookupAll t).isSome) ∧
    (∀ (j : ℕ) (p : ℝ × SatRow),
        (vcr_sat_table satLookupAll 0 79)[j]? = some p →
        (linspace 0 79 80)[j]? = some p.1 ∧ satLookupAll p.1 = some p.2) ∧
    ((linspace 0 79 80)[0]? = some 0 ∧ satLookupFail 0 = none ∧
      (vcr_sat_table satLookupFail 0 79)[0]? = some (0, satProbeRow) ∧
      (∃ i2 t2, 0 < i2 ∧ (linspace 0 79 80)[i2]? = some t2 ∧
        satLookupFail t2 = some satProbeRow ∧
        (((linspace 0 79 80).take i2).filterMap satLookupFail).length = 0)) := by
  have hall : ∀ t ∈ linspace 0 79 80, (satLookupAll t).isSome := by
    intro t _
    simp [satLookupAll]
  have hlen : (0:ℕ) < (linspace 0 79 80).length := by
    rw [linspace_length]
    norm_num
  have hlen1 : (1:ℕ) < (linspace 0 79 80).length := by
    rw [linspace_length]
    norm_num
  have hg0 : (linspace 0 79 80)[0]? = some 0 := by
    rw [List.getElem?_eq_getElem hlen, linspace_getElem]
    norm_num
  have hg1 : (linspace 0 79 80)[1]? = some 1 := by
    rw [List.getElem?_eq_getElem hlen1, linspace_getElem]
    norm_num
  have hf0 : satLookupFail 0 = none := by
    rw [satLookupFail]
    simp
  have hf1 : satLookupFail 1 = some satProbeRow := by
    rw [satLookupFail]
    norm_num
  have hks0 : ((linspace 0 79 80).filterMap satLookupFail)[0]? =
      some satProbeRow :=
    filterMap_zero_of_first_fail satLookupFail _ 0 1 satProbeRow hg0 hg1 hf0 hf1
  have hkpos : 0 < ((linspace 0 79 80).filterMap satLookupFail).length := by
    rcases List.getElem?_eq_some_iff.mp hks0 with ⟨hb, -⟩
    exact hb
  have htbl0 : (vcr_sat_table satLookupFail 0 79)[0]? =
      some (0, satProbeRow) := by
    rw [vcr_sat_table, satTable, List.getElem?_zip_eq_some]
    exact ⟨by rw [List.getElem?_take_of_lt hkpos]; exact hg0, hks0⟩
  refine ⟨hall, (C10_vcr_sat_table satLookupAll 0 79).2.2.1 hall,
    hg0, hf0, htbl0, ?_⟩
  exact (C10_vcr_sat_table satLookupFail 0 79).2.2.2 0 0 hg0 hf0 0
    (0, satProbeRow) le_rfl htbl0

end
